import Mathlib

/-!
Shallow embedding of the momento-cli cloud-linter pipeline
(`src/momento/src/commands/cloud_linter/elasticache.rs`,
`src/momento/src/commands/cloud_linter/linter_cli.rs`) and of the
ini-style credentials editor (`src/src/utils/ini_config.rs`),
with theorems checking the natural-language specification against the code.

Strings are modelled as Lean `String`/`List Char`; Rust's Unicode-aware
character classes (`\w`, `\s`) are modelled over their ASCII meaning.
-/

namespace MomentoCli

/-- Error type of the CLI (`CliError { msg: String }`). -/
structure CliError where
  msg : String
deriving DecidableEq, Repr

/-- The fields of `aws_sdk_elasticache::types::CacheNode` read by the collector. -/
structure CacheNode where
  cache_node_id : Option String
deriving DecidableEq, Repr

/-- The fields of `aws_sdk_elasticache::types::CacheCluster` read by the collector. -/
structure CacheCluster where
  cache_cluster_id : Option String
  cache_node_type : Option String
  preferred_availability_zone : Option String
  engine : Option String
  replication_group_id : Option String
  cache_nodes : Option (List CacheNode)
deriving DecidableEq, Repr

/-- `ElastiCacheMetadata` from elasticache.rs (serde names: clusterId, engine,
cacheNodeType, preferredAz, clusterModeEnabled). -/
structure ElastiCacheMetadata where
  cluster_id : String
  engine : String
  cache_node_type : String
  preferred_az : String
  cluster_mode_enabled : Bool
deriving DecidableEq, Repr

/-- Modelled from the spec: the `Metric` record of cloud_linter/metrics.rs is not
under src/; the spec describes it as a named, statistic-tagged observation
series. The numeric payload is modelled with integers since the spec does not
fix a numeric representation. -/
structure Metric where
  name : String
  values : List Int
deriving DecidableEq, Repr

/-- Modelled from the spec: the `ResourceType` enum of cloud_linter/resource.rs is
not under src/; elasticache.rs matches on the two ElastiCache variants and has a
catch-all arm for the others, which the spec says cover DynamoDB tables. -/
inductive ResourceType where
  | elastiCacheRedisNode
  | elastiCacheMemcachedNode
  | dynamoDbTable
deriving DecidableEq, Repr

/-- `ElastiCacheResource` (fields as used in elasticache.rs). -/
structure ElastiCacheResource where
  resource_type : ResourceType
  region : String
  id : String
  metrics : List Metric
  metric_period_seconds : Int
  metadata : ElastiCacheMetadata
deriving DecidableEq, Repr

/-- Modelled from the spec: the `Resource` union of cloud_linter/resource.rs is
not under src/; elasticache.rs constructs `Resource::ElastiCache` values and its
send loop has a catch-all arm for the other variants. -/
inductive Resource where
  | elastiCache (r : ElastiCacheResource)
  | dynamoDb
deriving DecidableEq, Repr

/-- `MetricTarget` as used by `create_metric_targets` (metrics.rs is not under
src/, but every field is populated literally in elasticache.rs). The Rust
`HashMap` of dimensions is modelled as an association list in insertion order;
the statistic catalogue map likewise. -/
structure MetricTarget where
  «namespace» : String
  expression : String
  dimensions : List (String × String)
  targets : List (String × List String)
deriving DecidableEq, Repr

/-- The literal `CACHE_METRICS` table of elasticache.rs, entries in source order. -/
def CACHE_METRICS : List (String × List String) :=
  [ ("Sum",
     [ "NetworkBytesIn", "NetworkBytesOut", "GeoSpatialBasedCmds", "EvalBasedCmds",
       "GetTypeCmds", "HashBasedCmds", "JsonBasedCmds", "KeyBasedCmds",
       "ListBasedCmds", "SetBasedCmds", "SetTypeCmds", "StringBasedCmds",
       "PubSubBasedCmds", "SortedSetBasedCmds", "StreamBasedCmds" ]),
    ("Average", [ "DB0AverageTTL" ]),
    ("Maximum",
     [ "CurrConnections", "NewConnections", "EngineCPUUtilization", "CPUUtilization",
       "FreeableMemory", "BytesUsedForCache", "DatabaseMemoryUsagePercentage",
       "CurrItems", "KeysTracked", "Evictions", "CacheHitRate" ]) ]

/-- `impl ResourceWithMetrics for ElastiCacheResource :: create_metric_targets`. -/
def create_metric_targets (r : ElastiCacheResource) :
    Except CliError (List MetricTarget) :=
  match r.resource_type with
  | ResourceType.elastiCacheRedisNode =>
      Except.ok [ { «namespace» := "AWS/ElastiCache"
                  , expression := ""
                  , dimensions :=
                      [ ("CacheClusterId", r.id), ("CacheNodeId", "0001") ]
                  , targets := CACHE_METRICS } ]
  | ResourceType.elastiCacheMemcachedNode =>
      Except.ok [ { «namespace» := "AWS/ElastiCache"
                  , expression := ""
                  , dimensions :=
                      [ ("CacheClusterId", r.metadata.cluster_id)
                      , ("CacheNodeId", r.id) ]
                  , targets := CACHE_METRICS } ]
  | _ => Except.error { msg := "Invalid resource type" }

/-- `set_metrics` from elasticache.rs: overwrite the metrics field. -/
def set_metrics (r : ElastiCacheResource) (metrics : List Metric) :
    ElastiCacheResource :=
  { r with metrics := metrics }

/-- `set_metric_period_seconds` from elasticache.rs: overwrite the period field. -/
def set_metric_period_seconds (r : ElastiCacheResource) (period : Int) :
    ElastiCacheResource :=
  { r with metric_period_seconds := period }

/-- Rust `str::trim_start_matches` specialised to a string pattern: remove
repeated occurrences of `pat` from the start. The fuel is the length of the
subject, which bounds the number of removals of a non-empty pattern; a
non-empty pattern never matches the empty remainder, so the fuel is never
exhausted early. -/
def trimStartAux (pat : List Char) : Nat → List Char → List Char
  | 0, s => s
  | fuel + 1, s =>
      if pat ≠ [] ∧ pat.isPrefixOf s then trimStartAux pat fuel (s.drop pat.length)
      else s

/-- `s.trim_start_matches(pat)` on strings. -/
def trim_start_matches (s pat : String) : String :=
  ⟨trimStartAux pat.toList s.toList.length s.toList⟩

/-- Rust `str::split('-')`: the segments between dashes, keeping empty segments. -/
def splitOnDash : List Char → List (List Char)
  | [] => [[]]
  | c :: rest =>
      match splitOnDash rest with
      | [] => [[]]
      | h :: t => if c = '-' then [] :: h :: t else (c :: h) :: t

/-- `s.split('-').count()` on strings. -/
def splitDashCount (s : String) : Nat :=
  (splitOnDash s.toList).length

/-- `Option::ok_or`: convert a missing value into a `CliError`. -/
def okOr (o : Option α) (e : CliError) : Except CliError α :=
  match o with
  | some a => Except.ok a
  | none => Except.error e

/-- The per-node body of the memcached arm of `write_resources` (elasticache.rs
lines 222-237): one resource per cache node, sharing the cluster-level
metadata, aborting on a node without an id. -/
def collectNodeResources (region : String) (metadata : ElastiCacheMetadata) :
    List CacheNode → Except CliError (List Resource)
  | [] => Except.ok []
  | node :: rest => do
      let cache_node_id ← okOr node.cache_node_id
        { msg := "Cache node has no ID" }
      let rest' ← collectNodeResources region metadata rest
      Except.ok
        (Resource.elastiCache
          { resource_type := ResourceType.elastiCacheMemcachedNode
          , region := region
          , id := cache_node_id
          , metrics := []
          , metric_period_seconds := 0
          , metadata := metadata } :: rest')

/-- The per-cluster body of the first loop of `write_resources`
(elasticache.rs lines 167-245): validate the mandatory descriptor fields,
dispatch on the engine, and return the resources contributed by this cluster. -/
def processCluster (region : String) (cluster : CacheCluster) :
    Except CliError (List Resource) := do
  let cache_cluster_id ← okOr cluster.cache_cluster_id
    { msg := "ElastiCache cluster has no ID" }
  let cache_node_type ← okOr cluster.cache_node_type
    { msg := "ElastiCache cluster has no node type" }
  let preferred_az ← okOr cluster.preferred_availability_zone
    { msg := "ElastiCache cluster has no preferred availability zone" }
  let engine ← okOr cluster.engine
    { msg := "ElastiCache cluster has no engine type" }
  match engine with
  | "redis" =>
      let (cluster_id, cluster_mode_enabled) :=
        match cluster.replication_group_id with
        | some replication_group_id =>
            let trimmed_cluster_id :=
              trim_start_matches cache_cluster_id (replication_group_id ++ "-")
            let parts_len := splitDashCount trimmed_cluster_id
            (replication_group_id, parts_len == 2)
        | none => (cache_cluster_id, false)
      let metadata : ElastiCacheMetadata :=
        { cluster_id := cluster_id
        , engine := engine
        , cache_node_type := cache_node_type
        , preferred_az := preferred_az
        , cluster_mode_enabled := cluster_mode_enabled }
      Except.ok
        [ Resource.elastiCache
            { resource_type := ResourceType.elastiCacheRedisNode
            , region := region
            , id := cache_cluster_id
            , metrics := []
            , metric_period_seconds := 0
            , metadata := metadata } ]
  | "memcached" =>
      let metadata : ElastiCacheMetadata :=
        { cluster_id := cache_cluster_id
        , engine := engine
        , cache_node_type := cache_node_type
        , preferred_az := preferred_az
        , cluster_mode_enabled := false }
      match cluster.cache_nodes with
      | some cache_nodes => collectNodeResources region metadata cache_nodes
      | none => Except.ok []
  | _ => Except.error { msg := "Unsupported engine: " ++ engine }

/-- The first loop of `write_resources`: accumulate each cluster's resources in
input order, aborting at the first failing cluster. -/
def collectResources (region : String) :
    List CacheCluster → Except CliError (List Resource)
  | [] => Except.ok []
  | cluster :: rest => do
      let rs ← processCluster region cluster
      let rest' ← collectResources region rest
      Except.ok (rs ++ rest')

/-- One page of the paginated `DescribeCacheClusters` call: the `cache_clusters`
field read by `describe_clusters`, or the fetch error. -/
structure DescribeCacheClustersPage where
  cache_clusters : Option (List CacheCluster)
deriving DecidableEq, Repr

/-- The `while let` loop of `describe_clusters` (elasticache.rs lines 138-151):
extend the accumulator with each successful page's clusters, abort on the first
failed page fetch. -/
def describe_clusters_loop (acc : List CacheCluster) :
    List (Except String DescribeCacheClustersPage) →
      Except CliError (List CacheCluster)
  | [] => Except.ok acc
  | page :: rest =>
      match page with
      | Except.ok result =>
          match result.cache_clusters with
          | some clusters => describe_clusters_loop (acc ++ clusters) rest
          | none => describe_clusters_loop acc rest
      | Except.error err =>
          Except.error { msg := "Failed to describe cache clusters: " ++ err }

/-- `describe_clusters` over the stream of pages produced by the paginator. -/
def describe_clusters
    (pages : List (Except String DescribeCacheClustersPage)) :
    Except CliError (List CacheCluster) :=
  describe_clusters_loop [] pages

/-- The items carried by one page: its clusters if the fetch succeeded and the
field is present, nothing otherwise. -/
def pageItems (page : Except String DescribeCacheClustersPage) :
    List CacheCluster :=
  match page with
  | Except.ok result => result.cache_clusters.getD []
  | Except.error _ => []

/-- An `ElastiCacheResource` together with counters of how many times
`set_metrics` and `set_metric_period_seconds` have been invoked on it. -/
structure TrackedResource where
  resource : ElastiCacheResource
  metrics_set_count : Nat
  period_set_count : Nat
deriving DecidableEq, Repr

/-- `set_metrics`, with its invocation counted. -/
def tracked_set_metrics (t : TrackedResource) (metrics : List Metric) :
    TrackedResource :=
  { t with resource := set_metrics t.resource metrics
         , metrics_set_count := t.metrics_set_count + 1 }

/-- `set_metric_period_seconds`, with its invocation counted. -/
def tracked_set_metric_period_seconds (t : TrackedResource) (period : Int) :
    TrackedResource :=
  { t with resource := set_metric_period_seconds t.resource period
         , period_set_count := t.period_set_count + 1 }

/-- Modelled from the spec: `append_metrics` of cloud_linter/metrics.rs is not
under src/. Per spec §4.4 it builds the resource's MetricTarget, issues one
rate-limited metrics query per statistic group (any query failure is fatal),
collects the returned values into Metric records, stores them with
`set_metrics`, and sets `metricPeriodSeconds` once from a run-wide period.
The query function and the period are parameters of the model. -/
def append_metrics
    (query : MetricTarget → String × List String → Except CliError (List Metric))
    (period : Int) (t : TrackedResource) : Except CliError TrackedResource := do
  let targets ← create_metric_targets t.resource
  let results ← targets.mapM fun target => target.targets.mapM (query target)
  let metrics := (results.map List.flatten).flatten
  Except.ok
    (tracked_set_metric_period_seconds (tracked_set_metrics t metrics) period)

/-- The second loop of `write_resources` (elasticache.rs lines 247-265):
enrich each resource and send it on the channel; the returned list models the
sequence of sent resources, in send order. -/
def sendResources
    (query : MetricTarget → String × List String → Except CliError (List Metric))
    (period : Int) : List Resource → Except CliError (List TrackedResource)
  | [] => Except.ok []
  | resource :: rest =>
      match resource with
      | Resource.elastiCache er => do
          let t ← append_metrics query period
            { resource := er, metrics_set_count := 0, period_set_count := 0 }
          let rest' ← sendResources query period rest
          Except.ok (t :: rest')
      | _ => Except.error { msg := "Invalid resource type" }

/-- `write_resources` in full: the collection loop followed by the
enrich-and-send loop. -/
def write_resources
    (query : MetricTarget → String × List String → Except CliError (List Metric))
    (period : Int) (region : String) (clusters : List CacheCluster) :
    Except CliError (List TrackedResource) := do
  let resources ← collectResources region clusters
  sendResources query period resources

/-- The resources that reach the output channel: none when the collector
fails. -/
def resourcesWritten
    (query : MetricTarget → String × List String → Except CliError (List Metric))
    (period : Int) (region : String) (clusters : List CacheCluster) :
    List TrackedResource :=
  match write_resources query period region clusters with
  | Except.ok sent => sent
  | Except.error _ => []

/-- `Credentials { token: String }` from the CLI config module. -/
structure Credentials where
  token : String
deriving DecidableEq, Repr

/-- Rust regex `\s` (modelled over ASCII): space, tab, line feed, vertical tab,
form feed, carriage return. -/
def isRegexSpace (c : Char) : Bool :=
  c = ' ' ∨ c = '\t' ∨ c = '\n' ∨ c = '\x0b' ∨ c = '\x0c' ∨ c = '\r'

/-- Rust regex `\w` (modelled over ASCII): letters, digits, underscore. -/
def isWordChar (c : Char) : Bool :=
  c.isAlpha ∨ c.isDigit ∨ c = '_'

/-- A character of the `[\w\.-]` class of the token-value capture group. -/
def isTokenValueChar (c : Char) : Bool :=
  isWordChar c ∨ c = '.' ∨ c = '-'

/-- `PROFILE_HEADER_REGEX`, `^\s*\[[^\]]+\]\s*$`: optional leading whitespace, a
bracketed non-empty name without closing brackets, optional trailing
whitespace. The character classes are disjoint from their delimiters, so the
regex is matched by this deterministic scan. -/
def is_profile_header_line (line : String) : Bool :=
  match line.toList.dropWhile isRegexSpace with
  | '[' :: rest =>
      let inner := rest.takeWhile (fun c => c ≠ ']')
      match rest.dropWhile (fun c => c ≠ ']') with
      | ']' :: tail => inner ≠ [] ∧ tail.dropWhile isRegexSpace = []
      | _ => false
  | _ => false

/-- The token-line regex of `replace_credentials_value`,
`^token\s*=\s*([\w\.-]*)\s*$`, as a deterministic full-line scan (again the
classes `\s`, `[\w\.-]` and the literal `=` are pairwise disjoint). -/
def token_line_matches (line : String) : Bool :=
  match line.toList with
  | 't' :: 'o' :: 'k' :: 'e' :: 'n' :: rest =>
      match rest.dropWhile isRegexSpace with
      | '=' :: afterEq =>
          ((afterEq.dropWhile isRegexSpace).dropWhile isTokenValueChar).all
            isRegexSpace
      | _ => false
  | _ => false

/-- The effect of `token_regex.replace` on one line: the anchored match spans
the whole line, so a matching line becomes `token=<token>` and any other line
is returned unchanged. -/
def token_line_replace (credentials : Credentials) (line : String) : String :=
  if token_line_matches line then "token=" ++ credentials.token else line

/-- `replace_credentials_value`: rewrite the line at `index` with the token
regex replacement, leaving every other line alone. All indices passed by the
callers are in bounds. -/
def replace_credentials_value (file_contents : List String) (index : Nat)
    (credentials : Credentials) : Except CliError (List String) :=
  Except.ok (file_contents.set index
    (token_line_replace credentials (file_contents.getD index "")))

/-- The first loop of `find_line_numbers_for_profile`: scan for the first line
equal to `expected`, returning its index and the lines after it. -/
def findFirstMatching (expected : String) :
    Nat → List String → Option (Nat × List String)
  | _, [] => none
  | counter, l :: rest =>
      if l = expected then some (counter, rest)
      else findFirstMatching expected (counter + 1) rest

/-- The second loop of `find_line_numbers_for_profile`: starting from the lines
after the matched header with the counter at its index, find the line number
just past the next profile header, defaulting to the file length. -/
def findNextHeaderEnd (deflt : Nat) : Nat → List String → Nat
  | _, [] => deflt
  | counter, l :: rest =>
      if is_profile_header_line l then counter + 1
      else findNextHeaderEnd deflt (counter + 1) rest

/-- `find_line_numbers_for_profile` from ini_config.rs: `(0, length)` when no
line equals `[profile_name]`, otherwise the matched index and the end of that
profile's section. -/
def find_line_numbers_for_profile (file_contents : List String)
    (profile_name : String) : Nat × Nat :=
  let expected_profile_line := "[" ++ profile_name ++ "]"
  match findFirstMatching expected_profile_line 0 file_contents with
  | none => (0, file_contents.length)
  | some (start_line, rest) =>
      (start_line, findNextHeaderEnd file_contents.length start_line rest)

/-- The `for n in profile_start_line..profile_end_line` loop of
`update_credentials_profile`, over the explicit list of visited indices. -/
def update_credentials_lines (credentials : Credentials) :
    List Nat → List String → Except CliError (List String)
  | [], contents => Except.ok contents
  | n :: rest, contents => do
      let contents' ← replace_credentials_value contents n credentials
      update_credentials_lines credentials rest contents'

/-- `update_credentials_profile` from ini_config.rs. -/
def update_credentials_profile (profile_name : String)
    (file_contents : List String) (credentials : Credentials) :
    Except CliError (List String) :=
  let bounds := find_line_numbers_for_profile file_contents profile_name
  update_credentials_lines credentials
    (List.range' bounds.1 (bounds.2 - bounds.1)) file_contents

/-! ## The report writer (`write_data_to_file` of linter_cli.rs)

The serde/flate2 crates and cloud_linter/resource.rs are not under src/, so
the JSON text encoding is modelled from the spec: §6 fixes the top-level
object `("resources": [...])`, each element carrying `resourceType`, `region`,
`id`, `metrics`, `metricPeriodSeconds` and the type-tagged `metadata` object
with the §3 field names. Serialization is modelled at the level of Unicode
scalar values (the UTF-8 byte encoding is left implicit), with fields in
declaration order, no whitespace, and JSON string escaping of quote,
backslash and control characters. Gzip is modelled by an abstract
compression/decompression pair. -/

/-- An opening curly bracket as a character. -/
def leftBrace : Char := '\x7b'

/-- A closing curly bracket as a character. -/
def rightBrace : Char := '\x7d'

/-- The decimal digit character for `n % 10`. -/
def decDigitChar (n : Nat) : Char := Char.ofNat (48 + n % 10)

/-- The lowercase hexadecimal digit character for `n % 16`. -/
def hexDigitChar (n : Nat) : Char :=
  if n % 16 < 10 then Char.ofNat (48 + n % 16) else Char.ofNat (87 + n % 16)

/-- JSON string escaping of one character: quote and backslash get a
backslash escape, control characters a `\u00XX` escape, anything else stands
for itself. -/
def escapeChar (c : Char) : List Char :=
  if c = '"' then ['\\', '"']
  else if c = '\\' then ['\\', '\\']
  else if c.toNat < 32 then
    ['\\', 'u', '0', '0', hexDigitChar (c.toNat / 16), hexDigitChar (c.toNat % 16)]
  else [c]

/-- A JSON string literal: quoted, escaped content. -/
def jsonStringChars (s : String) : List Char :=
  '"' :: (s.toList.flatMap escapeChar ++ ['"'])

/-- Decimal digits of a natural number, most significant first. -/
def natDigits (n : Nat) : List Char :=
  if _h : n < 10 then [decDigitChar n]
  else natDigits (n / 10) ++ [decDigitChar (n % 10)]
decreasing_by exact Nat.div_lt_self (by omega) (by omega)

/-- A JSON integer: optional minus sign and decimal digits. -/
def intChars (i : Int) : List Char :=
  if i < 0 then '-' :: natDigits i.natAbs else natDigits i.natAbs

/-- A JSON boolean. -/
def boolChars (b : Bool) : List Char :=
  if b then "true".toList else "false".toList

/-- A JSON array of the serialized elements. -/
def serList (ser : α → List Char) (xs : List α) : List Char :=
  '[' ::
    (match xs with
     | [] => []
     | x :: rest => ser x ++ rest.flatMap (fun y => ',' :: ser y)) ++ [']']

/-- Modelled from the spec: the serialized name of each resource family
(resource.rs is not under src/, which fixes only that the three families are
distinguishable; three distinct literals are chosen). -/
def resourceTypeName : ResourceType → String
  | ResourceType.elastiCacheRedisNode => "AWS::Elasticache::RedisNode"
  | ResourceType.elastiCacheMemcachedNode => "AWS::Elasticache::MemcachedNode"
  | ResourceType.dynamoDbTable => "AWS::DynamoDB::Table"

/-- The inverse of `resourceTypeName`. -/
def resourceTypeOfName (s : String) : Option ResourceType :=
  if s = "AWS::Elasticache::RedisNode" then some ResourceType.elastiCacheRedisNode
  else if s = "AWS::Elasticache::MemcachedNode" then
    some ResourceType.elastiCacheMemcachedNode
  else if s = "AWS::DynamoDB::Table" then some ResourceType.dynamoDbTable
  else none

/-- The serialized `Metric` object. -/
def serMetric (m : Metric) : List Char :=
  leftBrace ::
    ("\"name\":".toList ++ jsonStringChars m.name ++
     ",\"values\":".toList ++ serList intChars m.values ++ [rightBrace])

/-- The serialized `ElastiCacheMetadata` object, serde names in declaration
order. -/
def serMetadata (md : ElastiCacheMetadata) : List Char :=
  leftBrace ::
    ("\"clusterId\":".toList ++ jsonStringChars md.cluster_id ++
     ",\"engine\":".toList ++ jsonStringChars md.engine ++
     ",\"cacheNodeType\":".toList ++ jsonStringChars md.cache_node_type ++
     ",\"preferredAz\":".toList ++ jsonStringChars md.preferred_az ++
     ",\"clusterModeEnabled\":".toList ++ boolChars md.cluster_mode_enabled ++
     [rightBrace])

/-- The serialized `ElastiCacheResource` object, fields in the §6 order. -/
def serElastiCacheResource (er : ElastiCacheResource) : List Char :=
  leftBrace ::
    ("\"resourceType\":".toList ++
       jsonStringChars (resourceTypeName er.resource_type) ++
     ",\"region\":".toList ++ jsonStringChars er.region ++
     ",\"id\":".toList ++ jsonStringChars er.id ++
     ",\"metrics\":".toList ++ serList serMetric er.metrics ++
     ",\"metricPeriodSeconds\":".toList ++ intChars er.metric_period_seconds ++
     ",\"metadata\":".toList ++ serMetadata er.metadata ++ [rightBrace])

/-- The serialized `Resource`; the DynamoDB variant, whose payload is not under
src/, is modelled as a bare type-tag object. -/
def serResource : Resource → List Char
  | Resource.elastiCache er => serElastiCacheResource er
  | Resource.dynamoDb =>
      leftBrace :: ("\"resourceType\":\"AWS::DynamoDB::Table\"".toList ++ [rightBrace])

/-- The serialized top-level `DataFormat` object. -/
def serDataFormat (rs : List Resource) : List Char :=
  leftBrace :: ("\"resources\":".toList ++ serList serResource rs ++ [rightBrace])

/-- `serde_json::to_string(&data_format)` as modelled above. -/
def data_format_json (rs : List Resource) : String :=
  ⟨serDataFormat rs⟩

/-- `write_data_to_file`: serialize the accumulated resources and compress the
whole buffer in one pass; `compress` abstracts the gzip encoder, and the
returned value is the byte content written to the output path in a single
write call. -/
def write_data_to_file (compress : String → β) (rs : List Resource) : β :=
  compress (data_format_json rs)

/-! ### A decoder for the emitted JSON -/

/-- Consume an expected literal character sequence. -/
def expectChars : List Char → List Char → Option (List Char)
  | [], s => some s
  | c :: cs, d :: s => if d = c then expectChars cs s else none
  | _ :: _, [] => none

/-- Numeric value of a hexadecimal digit character. -/
def hexVal (c : Char) : Nat :=
  if c.isDigit then c.toNat - 48 else c.toNat - 87

/-- Whether a character is a lowercase hexadecimal digit. -/
def isHexDigitChar (c : Char) : Bool :=
  c.isDigit ∨ ('a' ≤ c ∧ c ≤ 'f')

/-- Decode a JSON string body up to its closing quote, undoing `escapeChar`. -/
def parseStringBody : List Char → Option (List Char × List Char)
  | [] => none
  | '"' :: rest => some ([], rest)
  | '\\' :: '"' :: rest =>
      (parseStringBody rest).map (fun p => ('"' :: p.1, p.2))
  | '\\' :: '\\' :: rest =>
      (parseStringBody rest).map (fun p => ('\\' :: p.1, p.2))
  | '\\' :: 'u' :: '0' :: '0' :: h :: l :: rest =>
      if isHexDigitChar h ∧ isHexDigitChar l then
        (parseStringBody rest).map
          (fun p => (Char.ofNat (16 * hexVal h + hexVal l) :: p.1, p.2))
      else none
  | '\\' :: _ => none
  | c :: rest => (parseStringBody rest).map (fun p => (c :: p.1, p.2))

/-- Decode a JSON string literal. -/
def parseJsonString (s : List Char) : Option (String × List Char) :=
  match s with
  | '"' :: rest => (parseStringBody rest).map (fun p => (⟨p.1⟩, p.2))
  | _ => none

/-- Numeric value of a decimal digit character. -/
def digitVal (c : Char) : Nat := c.toNat - 48

/-- Consume a maximal run of decimal digits into an accumulator. -/
def parseDigitsAcc (acc : Nat) : List Char → Nat × List Char
  | [] => (acc, [])
  | c :: rest =>
      if c.isDigit then parseDigitsAcc (acc * 10 + digitVal c) rest
      else (acc, c :: rest)

/-- Decode a JSON natural number (at least one digit). -/
def parseNat (s : List Char) : Option (Nat × List Char) :=
  match s with
  | c :: rest =>
      if c.isDigit then some (parseDigitsAcc (digitVal c) rest) else none
  | [] => none

/-- Decode a JSON integer. -/
def parseInt (s : List Char) : Option (Int × List Char) :=
  match s with
  | '-' :: rest => (parseNat rest).map (fun p => (-(p.1 : Int), p.2))
  | _ => (parseNat s).map (fun p => ((p.1 : Int), p.2))

/-- Decode a JSON boolean. -/
def parseBool (s : List Char) : Option (Bool × List Char) :=
  match expectChars "true".toList s with
  | some rest => some (true, rest)
  | none =>
      match expectChars "false".toList s with
      | some rest => some (false, rest)
      | none => none

/-- Decode the comma-separated items of a non-empty JSON array, up to and
including the closing bracket; the fuel bounds the number of items. -/
def parseItems (p : List Char → Option (α × List Char)) :
    Nat → List Char → Option (List α × List Char)
  | 0, _ => none
  | fuel + 1, s => do
      let (x, s1) ← p s
      match s1 with
      | ',' :: s2 => do
          let (xs, s3) ← parseItems p fuel s2
          some (x :: xs, s3)
      | ']' :: s2 => some ([x], s2)
      | _ => none

/-- Decode a JSON array with element decoder `p`. -/
def parseListOf (p : List Char → Option (α × List Char)) (fuel : Nat)
    (s : List Char) : Option (List α × List Char) :=
  match s with
  | '[' :: ']' :: rest => some ([], rest)
  | '[' :: rest => parseItems p fuel rest
  | _ => none

/-- Decode a serialized `Metric` object. -/
def parseMetric (fuel : Nat) (s : List Char) : Option (Metric × List Char) := do
  let s1 ← expectChars (leftBrace :: "\"name\":".toList) s
  let (name, s2) ← parseJsonString s1
  let s3 ← expectChars ",\"values\":".toList s2
  let (values, s4) ← parseListOf parseInt fuel s3
  let s5 ← expectChars [rightBrace] s4
  some ({ name := name, values := values }, s5)

/-- Decode a serialized `ElastiCacheMetadata` object. -/
def parseMetadata (s : List Char) :
    Option (ElastiCacheMetadata × List Char) := do
  let s1 ← expectChars (leftBrace :: "\"clusterId\":".toList) s
  let (cluster_id, s2) ← parseJsonString s1
  let s3 ← expectChars ",\"engine\":".toList s2
  let (engine, s4) ← parseJsonString s3
  let s5 ← expectChars ",\"cacheNodeType\":".toList s4
  let (cache_node_type, s6) ← parseJsonString s5
  let s7 ← expectChars ",\"preferredAz\":".toList s6
  let (preferred_az, s8) ← parseJsonString s7
  let s9 ← expectChars ",\"clusterModeEnabled\":".toList s8
  let (cluster_mode_enabled, s10) ← parseBool s9
  let s11 ← expectChars [rightBrace] s10
  some ({ cluster_id := cluster_id, engine := engine
        , cache_node_type := cache_node_type, preferred_az := preferred_az
        , cluster_mode_enabled := cluster_mode_enabled }, s11)

/-- Decode the remaining fields of a serialized `ElastiCacheResource` object,
after the resource-type tag. -/
def parseResourceFields (fuel : Nat) (rt : ResourceType) (s2 : List Char) :
    Option (Resource × List Char) := do
  let s3 ← expectChars ",\"region\":".toList s2
  let (region, s4) ← parseJsonString s3
  let s5 ← expectChars ",\"id\":".toList s4
  let (id, s6) ← parseJsonString s5
  let s7 ← expectChars ",\"metrics\":".toList s6
  let (metrics, s8) ← parseListOf (parseMetric fuel) fuel s7
  let s9 ← expectChars ",\"metricPeriodSeconds\":".toList s8
  let (metric_period_seconds, s10) ← parseInt s9
  let s11 ← expectChars ",\"metadata\":".toList s10
  let (metadata, s12) ← parseMetadata s11
  let s13 ← expectChars [rightBrace] s12
  some (Resource.elastiCache
    { resource_type := rt, region := region, id := id, metrics := metrics
    , metric_period_seconds := metric_period_seconds
    , metadata := metadata }, s13)

/-- Decode a serialized `Resource` object. -/
def parseResource (fuel : Nat) (s : List Char) :
    Option (Resource × List Char) := do
  let s1 ← expectChars (leftBrace :: "\"resourceType\":".toList) s
  let (rtName, s2) ← parseJsonString s1
  let rt ← resourceTypeOfName rtName
  match s2 with
  | '\x7d' :: rest =>
      if rt = ResourceType.dynamoDbTable then some (Resource.dynamoDb, rest)
      else none
  | _ => parseResourceFields fuel rt s2

/-- Decode the whole report object; succeeds only when the input is consumed
exactly. -/
def parseDataFormat (fuel : Nat) (s : List Char) : Option (List Resource) := do
  let s1 ← expectChars (leftBrace :: "\"resources\":".toList) s
  let (resources, s2) ← parseListOf (parseResource fuel) fuel s1
  let s3 ← expectChars [rightBrace] s2
  match s3 with
  | [] => some resources
  | _ => none

/-- Decode a report from its JSON text; the decoding budget is the text
length, which bounds any item count in it. -/
def parse_data_format (s : String) : Option (List Resource) :=
  parseDataFormat s.toList.length s.toList

/-! ## Claim-side helper definitions -/

/-- The metadata clusterId of a resource (empty for the non-ElastiCache stub). -/
def resourceClusterId : Resource → String
  | Resource.elastiCache er => er.metadata.cluster_id
  | Resource.dynamoDb => ""

/-- The metadata clusterModeEnabled of a resource. -/
def resourceClusterModeEnabled : Resource → Bool
  | Resource.elastiCache er => er.metadata.cluster_mode_enabled
  | Resource.dynamoDb => false

/-- The claim's reading of "stripping the prefix": remove one occurrence of `p`
from the front of `s` when it is there (contrast with the repeated removal of
`trimStartAux`, which is what the code does). -/
def claimStripOnce (p s : List Char) : List Char :=
  if p.isPrefixOf s then s.drop p.length else s

/-- The claim's "engine value outside (redis, memcached)" hypothesis. -/
def claimUnknownEngine (c : CacheCluster) : Prop :=
  match c.engine with
  | some e => ¬(e = "redis" ∨ e = "memcached")
  | none => False

/-- The claim's "missing any mandatory metadata field" hypothesis: one of the
cluster-level fields is absent, or the cluster is a memcached cluster one of
whose nodes has no id (node ids are only consulted for memcached clusters). -/
def claimMissingMandatoryField (c : CacheCluster) : Prop :=
  c.cache_cluster_id = none ∨ c.cache_node_type = none ∨
  c.preferred_availability_zone = none ∨ c.engine = none ∨
  (c.engine = some "memcached" ∧ ∃ n ∈ c.cache_nodes.getD [], n.cache_node_id = none)

/-- Whether an `Except` value is an error, as a boolean. -/
def exceptIsError : Except ε α → Bool
  | Except.error _ => true
  | Except.ok _ => false

/-- The decoding budget a resource needs: its metric count and each metric's
value count. -/
def resourceFuelOK (fuel : Nat) : Resource → Prop
  | Resource.elastiCache er =>
      er.metrics.length ≤ fuel ∧ ∀ m ∈ er.metrics, m.values.length ≤ fuel
  | Resource.dynamoDb => True

/-! ## Supporting lemmas -/

theorem collectNodeResources_map (region : String) (md : ElastiCacheMetadata)
    (ids : List String) :
    collectNodeResources region md (ids.map (fun nid => { cache_node_id := some nid })) =
      Except.ok (ids.map (fun nid =>
        Resource.elastiCache
          { resource_type := ResourceType.elastiCacheMemcachedNode
          , region := region, id := nid, metrics := []
          , metric_period_seconds := 0, metadata := md })) := by
  induction ids with
  | nil => rfl
  | cons nid rest ih =>
      simp only [collectNodeResources, okOr, List.map_cons, ih]
      rfl

/-! ## Claim theorems -/

/-- C1: for a redis cluster descriptor carrying a replication group id, the
code sets the metadata clusterId to the replication group id itself, not to
the remainder of the cluster's own id after the prefix is stripped: on cache
cluster id "myrepl-0001-001" with replication group id "myrepl" the resulting
clusterId is "myrepl", while the claim demands the remainder "0001-001". -/
theorem C1_counterexample :
    (processCluster "us-west-2"
        { cache_cluster_id := some "myrepl-0001-001"
        , cache_node_type := some "cache.t3.micro"
        , preferred_availability_zone := some "us-west-2a"
        , engine := some "redis"
        , replication_group_id := some "myrepl"
        , cache_nodes := none }).map (List.map resourceClusterId)
      = Except.ok ["myrepl"] ∧ "myrepl" ≠ "0001-001" := by
  exact ⟨rfl, by decide⟩

/-- C1 (amended): for every redis cache cluster descriptor that carries a
replication group id, the collector sets the resulting Resource's metadata
clusterId to the replication group id itself; for every redis cluster
descriptor without a replication group id, metadata clusterId equals the
cluster's own id. -/
theorem C1_clusterId (region id node_type az : String)
    (nodes : Option (List CacheNode)) :
    (∀ rg : String,
      (processCluster region
          { cache_cluster_id := some id, cache_node_type := some node_type
          , preferred_availability_zone := some az, engine := some "redis"
          , replication_group_id := some rg, cache_nodes := nodes }).map
        (List.map resourceClusterId) = Except.ok [rg])
    ∧ (processCluster region
          { cache_cluster_id := some id, cache_node_type := some node_type
          , preferred_availability_zone := some az, engine := some "redis"
          , replication_group_id := none, cache_nodes := nodes }).map
        (List.map resourceClusterId) = Except.ok [id] := by
  exact ⟨fun rg => rfl, rfl⟩

/-- C3: the claim reads "after stripping the replicationGroupId-plus-'-'
prefix" as removing the prefix once, but the code's `trim_start_matches`
removes it repeatedly: on cache cluster id "myrepl-myrepl-001" with
replication group id "myrepl", stripping once leaves "myrepl-001", which
splits into exactly two segments, so the claim demands
clusterModeEnabled = true — but the code strips down to "001" and yields
false. -/
theorem C3_counterexample :
    (splitOnDash (claimStripOnce "myrepl-".toList "myrepl-myrepl-001".toList)).length = 2
    ∧ (processCluster "us-west-2"
        { cache_cluster_id := some "myrepl-myrepl-001"
        , cache_node_type := some "cache.t3.micro"
        , preferred_availability_zone := some "us-west-2a"
        , engine := some "redis"
        , replication_group_id := some "myrepl"
        , cache_nodes := none }).map (List.map resourceClusterModeEnabled)
      = Except.ok [false] := by
  exact ⟨by decide, rfl⟩

/-- C3 (amended): for every redis cluster descriptor with a replication group
id, clusterModeEnabled is true exactly when the cluster's own id, after
repeatedly stripping every leading occurrence of replicationGroupId followed
by "-", splits on "-" into exactly two segments; the claim's two examples
hold ("myrepl-0001-001"/"myrepl" gives true, "myrepl-001"/"myrepl" gives
false), and a redis cluster without a replication group id gives false. -/
theorem C3_clusterMode (region id node_type az : String)
    (nodes : Option (List CacheNode)) :
    (∀ rg : String,
      (processCluster region
          { cache_cluster_id := some id, cache_node_type := some node_type
          , preferred_availability_zone := some az, engine := some "redis"
          , replication_group_id := some rg, cache_nodes := nodes }).map
        (List.map resourceClusterModeEnabled)
        = Except.ok [splitDashCount (trim_start_matches id (rg ++ "-")) == 2])
    ∧ (processCluster region
          { cache_cluster_id := some "myrepl-0001-001"
          , cache_node_type := some node_type
          , preferred_availability_zone := some az, engine := some "redis"
          , replication_group_id := some "myrepl", cache_nodes := nodes }).map
        (List.map resourceClusterModeEnabled) = Except.ok [true]
    ∧ (processCluster region
          { cache_cluster_id := some "myrepl-001"
          , cache_node_type := some node_type
          , preferred_availability_zone := some az, engine := some "redis"
          , replication_group_id := some "myrepl", cache_nodes := nodes }).map
        (List.map resourceClusterModeEnabled) = Except.ok [false]
    ∧ (processCluster region
          { cache_cluster_id := some id, cache_node_type := some node_type
          , preferred_availability_zone := some az, engine := some "redis"
          , replication_group_id := none, cache_nodes := nodes }).map
        (List.map resourceClusterModeEnabled) = Except.ok [false] := by
  exact ⟨fun rg => rfl, rfl, rfl, rfl⟩

/-- C4: a memcached cluster descriptor whose node list carries n node ids
produces exactly one Resource per node, in node order, each with the node's
own id as `id`, and metadata copied unchanged from the cluster-level data,
with clusterId the cluster descriptor's own id (no stripping). -/
theorem C4_memcached_fanout (region id node_type az : String)
    (rg : Option String) (nodeIds : List String) :
    processCluster region
      { cache_cluster_id := some id, cache_node_type := some node_type
      , preferred_availability_zone := some az, engine := some "memcached"
      , replication_group_id := rg
      , cache_nodes := some (nodeIds.map (fun nid => { cache_node_id := some nid })) }
      = Except.ok (nodeIds.map (fun nid =>
          Resource.elastiCache
            { resource_type := ResourceType.elastiCacheMemcachedNode
            , region := region, id := nid, metrics := []
            , metric_period_seconds := 0
            , metadata := { cluster_id := id, engine := "memcached"
                          , cache_node_type := node_type, preferred_az := az
                          , cluster_mode_enabled := false } })) := by
  have h := collectNodeResources_map region
    { cluster_id := id, engine := "memcached", cache_node_type := node_type
    , preferred_az := az, cluster_mode_enabled := false } nodeIds
  simpa [processCluster, okOr] using h

/-- C9: a memcached cluster descriptor whose cache-node list is absent or
empty contributes zero Resources and no error: the collector succeeds with an
empty output for that cluster. -/
theorem C9_memcached_no_nodes (region id node_type az : String)
    (rg : Option String) :
    processCluster region
      { cache_cluster_id := some id, cache_node_type := some node_type
      , preferred_availability_zone := some az, engine := some "memcached"
      , replication_group_id := rg, cache_nodes := none } = Except.ok []
    ∧ processCluster region
      { cache_cluster_id := some id, cache_node_type := some node_type
      , preferred_availability_zone := some az, engine := some "memcached"
      , replication_group_id := rg, cache_nodes := some [] } = Except.ok []
    ∧ collectResources region
      [ { cache_cluster_id := some id, cache_node_type := some node_type
        , preferred_availability_zone := some az, engine := some "memcached"
        , replication_group_id := rg, cache_nodes := none } ] = Except.ok []
    ∧ collectResources region
      [ { cache_cluster_id := some id, cache_node_type := some node_type
        , preferred_availability_zone := some az, engine := some "memcached"
        , replication_group_id := rg, cache_nodes := some [] } ] = Except.ok [] := by
  exact ⟨rfl, rfl, rfl, rfl⟩

/-- C2: for a redis resource the CacheClusterId dimension is the resource's
own id (the full cache cluster id), not its metadata clusterId: the resource
produced for cache cluster "myrepl-0001-001" in replication group "myrepl"
has metadata clusterId "myrepl", yet its metric target carries
CacheClusterId "myrepl-0001-001". -/
theorem C2_counterexample :
    let er : ElastiCacheResource :=
      { resource_type := ResourceType.elastiCacheRedisNode
      , region := "us-west-2", id := "myrepl-0001-001"
      , metrics := [], metric_period_seconds := 0
      , metadata := { cluster_id := "myrepl", engine := "redis"
                    , cache_node_type := "cache.t3.micro"
                    , preferred_az := "us-west-2a"
                    , cluster_mode_enabled := true } }
    processCluster "us-west-2"
        { cache_cluster_id := some "myrepl-0001-001"
        , cache_node_type := some "cache.t3.micro"
        , preferred_availability_zone := some "us-west-2a"
        , engine := some "redis"
        , replication_group_id := some "myrepl"
        , cache_nodes := none } = Except.ok [Resource.elastiCache er]
    ∧ (create_metric_targets er).map (List.map MetricTarget.dimensions)
      = Except.ok [[("CacheClusterId", "myrepl-0001-001"), ("CacheNodeId", "0001")]]
    ∧ er.metadata.cluster_id = "myrepl"
    ∧ "myrepl-0001-001" ≠ "myrepl" := by
  exact ⟨rfl, rfl, rfl, by decide⟩

/-- C2 (amended): every ElastiCache resource yields exactly one MetricTarget
with namespace "AWS/ElastiCache"; its dimensions are CacheClusterId = the
resource's own id and CacheNodeId = "0001" for redis, and CacheClusterId =
the metadata clusterId and CacheNodeId = the resource's own id for
memcached; the statistic catalogue is the literal CACHE_METRICS table,
reproduced here entry for entry. -/
theorem C2_metric_targets (er : ElastiCacheResource) :
    (er.resource_type = ResourceType.elastiCacheRedisNode →
      create_metric_targets er = Except.ok
        [ { «namespace» := "AWS/ElastiCache"
          , expression := ""
          , dimensions := [("CacheClusterId", er.id), ("CacheNodeId", "0001")]
          , targets :=
              [ ("Sum",
                 [ "NetworkBytesIn", "NetworkBytesOut", "GeoSpatialBasedCmds",
                   "EvalBasedCmds", "GetTypeCmds", "HashBasedCmds",
                   "JsonBasedCmds", "KeyBasedCmds", "ListBasedCmds",
                   "SetBasedCmds", "SetTypeCmds", "StringBasedCmds",
                   "PubSubBasedCmds", "SortedSetBasedCmds", "StreamBasedCmds" ]),
                ("Average", [ "DB0AverageTTL" ]),
                ("Maximum",
                 [ "CurrConnections", "NewConnections", "EngineCPUUtilization",
                   "CPUUtilization", "FreeableMemory", "BytesUsedForCache",
                   "DatabaseMemoryUsagePercentage", "CurrItems", "KeysTracked",
                   "Evictions", "CacheHitRate" ]) ] } ])
    ∧ (er.resource_type = ResourceType.elastiCacheMemcachedNode →
      create_metric_targets er = Except.ok
        [ { «namespace» := "AWS/ElastiCache"
          , expression := ""
          , dimensions := [("CacheClusterId", er.metadata.cluster_id), ("CacheNodeId", er.id)]
          , targets :=
              [ ("Sum",
                 [ "NetworkBytesIn", "NetworkBytesOut", "GeoSpatialBasedCmds",
                   "EvalBasedCmds", "GetTypeCmds", "HashBasedCmds",
                   "JsonBasedCmds", "KeyBasedCmds", "ListBasedCmds",
                   "SetBasedCmds", "SetTypeCmds", "StringBasedCmds",
                   "PubSubBasedCmds", "SortedSetBasedCmds", "StreamBasedCmds" ]),
                ("Average", [ "DB0AverageTTL" ]),
                ("Maximum",
                 [ "CurrConnections", "NewConnections", "EngineCPUUtilization",
                   "CPUUtilization", "FreeableMemory", "BytesUsedForCache",
                   "DatabaseMemoryUsagePercentage", "CurrItems", "KeysTracked",
                   "Evictions", "CacheHitRate" ]) ] } ]) := by
  constructor
  · intro h
    simp [create_metric_targets, h, CACHE_METRICS]
  · intro h
    simp [create_metric_targets, h, CACHE_METRICS]

/-- Witness for the amended C2, at one redis and one memcached resource. -/
theorem C2_metric_targets_witness :
    (create_metric_targets
        { resource_type := ResourceType.elastiCacheRedisNode
        , region := "us-west-2", id := "myrepl-0001-001"
        , metrics := [], metric_period_seconds := 0
        , metadata := { cluster_id := "myrepl", engine := "redis"
                      , cache_node_type := "cache.t3.micro"
                      , preferred_az := "us-west-2a"
                      , cluster_mode_enabled := true } }).map
      (List.map MetricTarget.dimensions)
      = Except.ok [[("CacheClusterId", "myrepl-0001-001"), ("CacheNodeId", "0001")]]
    ∧ (create_metric_targets
        { resource_type := ResourceType.elastiCacheMemcachedNode
        , region := "us-west-2", id := "0001"
        , metrics := [], metric_period_seconds := 0
        , metadata := { cluster_id := "memc1", engine := "memcached"
                      , cache_node_type := "cache.t3.micro"
                      , preferred_az := "us-west-2a"
                      , cluster_mode_enabled := false } }).map
      (List.map MetricTarget.dimensions)
      = Except.ok [[("CacheClusterId", "memc1"), ("CacheNodeId", "0001")]] := by
  constructor
  · have h := (C2_metric_targets
      { resource_type := ResourceType.elastiCacheRedisNode
      , region := "us-west-2", id := "myrepl-0001-001"
      , metrics := [], metric_period_seconds := 0
      , metadata := { cluster_id := "myrepl", engine := "redis"
                    , cache_node_type := "cache.t3.micro"
                    , preferred_az := "us-west-2a"
                    , cluster_mode_enabled := true } }).1 rfl
    rw [h]
    rfl
  · have h := (C2_metric_targets
      { resource_type := ResourceType.elastiCacheMemcachedNode
      , region := "us-west-2", id := "0001"
      , metrics := [], metric_period_seconds := 0
      , metadata := { cluster_id := "memc1", engine := "memcached"
                    , cache_node_type := "cache.t3.micro"
                    , preferred_az := "us-west-2a"
                    , cluster_mode_enabled := false } }).2 rfl
    rw [h]
    rfl

theorem ok_bind (a : α) (f : α → Except ε β) : (Except.ok a >>= f) = f a := rfl

theorem error_bind (e : ε) (f : α → Except ε β) :
    ((Except.error e : Except ε α) >>= f) = Except.error e := rfl

theorem collectNodeResources_error (region : String) (md : ElastiCacheMetadata)
    (nodes : List CacheNode) (h : ∃ n ∈ nodes, n.cache_node_id = none) :
    ∃ e, collectNodeResources region md nodes = Except.error e := by
  induction nodes with
  | nil => simp at h
  | cons node rest ih =>
      obtain ⟨n, hn, hid⟩ := h
      rcases List.mem_cons.mp hn with heq | hmem
      · subst heq
        exact ⟨_, by simp only [collectNodeResources, hid]; rfl⟩
      · cases hcid : node.cache_node_id with
        | none => exact ⟨_, by simp only [collectNodeResources, hcid]; rfl⟩
        | some cid =>
            obtain ⟨e, he⟩ := ih ⟨n, hmem, hid⟩
            refine ⟨e, ?_⟩
            simp only [collectNodeResources, hcid, okOr, ok_bind, he, error_bind]

theorem processCluster_unknown_engine (region id nt az eng : String)
    (rg : Option String) (nodes : Option (List CacheNode))
    (hr : eng ≠ "redis") (hm : eng ≠ "memcached") :
    processCluster region
      { cache_cluster_id := some id, cache_node_type := some nt
      , preferred_availability_zone := some az, engine := some eng
      , replication_group_id := rg, cache_nodes := nodes }
      = Except.error { msg := "Unsupported engine: " ++ eng } := by
  simp only [processCluster, okOr, ok_bind]

theorem processCluster_error_of_bad (region : String) (c : CacheCluster)
    (h : claimUnknownEngine c ∨ claimMissingMandatoryField c) :
    ∃ e, processCluster region c = Except.error e := by
  cases h1 : c.cache_cluster_id with
  | none =>
      exact ⟨{ msg := "ElastiCache cluster has no ID" },
        by simp only [processCluster, h1, okOr, error_bind]⟩
  | some id =>
  cases h2 : c.cache_node_type with
  | none =>
      exact ⟨{ msg := "ElastiCache cluster has no node type" },
        by simp only [processCluster, h1, h2, okOr, ok_bind, error_bind]⟩
  | some nt =>
  cases h3 : c.preferred_availability_zone with
  | none =>
      exact ⟨{ msg := "ElastiCache cluster has no preferred availability zone" },
        by simp only [processCluster, h1, h2, h3, okOr, ok_bind, error_bind]⟩
  | some az =>
  cases h4 : c.engine with
  | none =>
      exact ⟨{ msg := "ElastiCache cluster has no engine type" },
        by simp only [processCluster, h1, h2, h3, h4, okOr, ok_bind, error_bind]⟩
  | some eng =>
  rcases h with hu | hm
  · rw [claimUnknownEngine, h4] at hu
    push_neg at hu
    refine ⟨{ msg := "Unsupported engine: " ++ eng }, ?_⟩
    have hc : c = { cache_cluster_id := some id, cache_node_type := some nt
                  , preferred_availability_zone := some az, engine := some eng
                  , replication_group_id := c.replication_group_id
                  , cache_nodes := c.cache_nodes } := by
      cases c
      simp_all
    rw [hc]
    exact processCluster_unknown_engine region id nt az eng _ _ hu.1 hu.2
  · rcases hm with hf | hf | hf | hf | ⟨heng, hnode⟩
    · exact absurd h1 (by simp [hf])
    · exact absurd h2 (by simp [hf])
    · exact absurd h3 (by simp [hf])
    · exact absurd h4 (by simp [hf])
    · have heqe : eng = "memcached" := by
        rw [h4] at heng
        exact Option.some.inj heng
      subst heqe
      cases h5 : c.cache_nodes with
      | none =>
          rw [h5] at hnode
          simp at hnode
      | some nodes =>
          rw [h5] at hnode
          simp only [Option.getD_some] at hnode
          obtain ⟨e, he⟩ := collectNodeResources_error region
            { cluster_id := id, engine := "memcached", cache_node_type := nt
            , preferred_az := az, cluster_mode_enabled := false } nodes hnode
          refine ⟨e, ?_⟩
          simp only [processCluster, h1, h2, h3, h4, h5, okOr, ok_bind]
          exact he

theorem collectResources_error_of_mem (region : String)
    (clusters : List CacheCluster) (c : CacheCluster) (hc : c ∈ clusters)
    (he : ∃ e, processCluster region c = Except.error e) :
    ∃ e, collectResources region clusters = Except.error e := by
  induction clusters with
  | nil => simp at hc
  | cons d rest ih =>
      rcases List.mem_cons.mp hc with heq | hmem
      · subst heq
        obtain ⟨e, hpe⟩ := he
        exact ⟨e, by simp only [collectResources, hpe, error_bind]⟩
      · cases hd : processCluster region d with
        | error e => exact ⟨e, by simp only [collectResources, hd, error_bind]⟩
        | ok rs =>
            obtain ⟨e, hrest⟩ := ih hmem
            exact ⟨e, by simp only [collectResources, hd, ok_bind, hrest, error_bind]⟩

/-- C5: a cluster descriptor with an engine outside (redis, memcached), or
with a missing mandatory field (cluster id, node type, preferred availability
zone, engine, or — for a memcached cluster — a node id), makes the collector
return an error instead of a resource list, so the run aborts and nothing is
sent towards the output file. -/
theorem C5_bad_cluster_aborts (region : String) (clusters : List CacheCluster)
    (c : CacheCluster) (hc : c ∈ clusters)
    (hbad : claimUnknownEngine c ∨ claimMissingMandatoryField c) :
    exceptIsError (collectResources region clusters) = true
    ∧ ∀ query period,
        exceptIsError (write_resources query period region clusters) = true
        ∧ resourcesWritten query period region clusters = [] := by
  obtain ⟨e, he⟩ := collectResources_error_of_mem region clusters c hc
    (processCluster_error_of_bad region c hbad)
  refine ⟨by rw [he]; rfl, fun query period => ⟨?_, ?_⟩⟩
  · rw [write_resources, he, error_bind]
    rfl
  · rw [resourcesWritten, write_resources, he, error_bind]

/-- Witness for C5 at a one-cluster list whose engine is "postgres". -/
theorem C5_bad_cluster_aborts_witness :
    resourcesWritten (fun _ _ => Except.ok []) 0 "us-west-2"
      [ { cache_cluster_id := some "c1", cache_node_type := some "cache.t3.micro"
        , preferred_availability_zone := some "us-west-2a"
        , engine := some "postgres", replication_group_id := none
        , cache_nodes := none } ] = [] :=
  ((C5_bad_cluster_aborts "us-west-2"
      [ { cache_cluster_id := some "c1", cache_node_type := some "cache.t3.micro"
        , preferred_availability_zone := some "us-west-2a"
        , engine := some "postgres", replication_group_id := none
        , cache_nodes := none } ]
      { cache_cluster_id := some "c1", cache_node_type := some "cache.t3.micro"
      , preferred_availability_zone := some "us-west-2a"
      , engine := some "postgres", replication_group_id := none
      , cache_nodes := none }
      (by decide)
      (Or.inl (by intro hor; rcases hor with hh | hh <;> simp at hh))).2
    (fun _ _ => Except.ok []) 0).2

theorem describe_clusters_loop_ok
    (pages : List (Except String DescribeCacheClustersPage))
    (h : ∀ p ∈ pages, ∃ pg, p = Except.ok pg) :
    ∀ acc, describe_clusters_loop acc pages
      = Except.ok (acc ++ pages.flatMap pageItems) := by
  induction pages with
  | nil => intro acc; simp [describe_clusters_loop]
  | cons p rest ih =>
      intro acc
      have hrest := ih (fun q hq => h q (List.mem_cons_of_mem p hq))
      obtain ⟨pg, rfl⟩ := h p (List.mem_cons_self p rest)
      cases hcc : pg.cache_clusters with
      | none =>
          simp only [describe_clusters_loop, hcc, hrest, List.flatMap_cons,
            pageItems, Option.getD_none, List.nil_append, List.append_nil]
      | some clusters =>
          simp only [describe_clusters_loop, hcc, hrest, List.flatMap_cons,
            pageItems, Option.getD_some, List.append_assoc]

theorem describe_clusters_loop_error
    (pages : List (Except String DescribeCacheClustersPage)) (err : String)
    (h : Except.error err ∈ pages) :
    ∀ acc, ∃ e, describe_clusters_loop acc pages = Except.error e := by
  induction pages with
  | nil => simp at h
  | cons p rest ih =>
      intro acc
      cases p with
      | error e' =>
          exact ⟨{ msg := "Failed to describe cache clusters: " ++ e' }, rfl⟩
      | ok pg =>
          have hmem : Except.error err ∈ rest := by
            rcases List.mem_cons.mp h with heq | hmem
            · exact absurd heq.symm (by simp)
            · exact hmem
          cases hcc : pg.cache_clusters with
          | none =>
              obtain ⟨e, he⟩ := ih hmem acc
              exact ⟨e, by simp only [describe_clusters_loop, hcc, he]⟩
          | some clusters =>
              obtain ⟨e, he⟩ := ih hmem (acc ++ clusters)
              exact ⟨e, by simp only [describe_clusters_loop, hcc, he]⟩

/-- C6: with every page fetch succeeding, discovery returns exactly the
concatenation of all pages' cluster lists, in page order and within-page
order; with any failing page fetch, discovery returns an error. -/
theorem C6_pagination :
    (∀ pages : List (Except String DescribeCacheClustersPage),
      (∀ p ∈ pages, ∃ pg, p = Except.ok pg) →
      describe_clusters pages = Except.ok (pages.flatMap pageItems))
    ∧ (∀ (pages : List (Except String DescribeCacheClustersPage)) (err : String),
      Except.error err ∈ pages →
      ∃ e, describe_clusters pages = Except.error e) := by
  constructor
  · intro pages h
    have := describe_clusters_loop_ok pages h []
    simpa [describe_clusters] using this
  · intro pages err h
    exact describe_clusters_loop_error pages err h []

/-- Witness for C6: a three-page run concatenates in order; a run whose second
page fails errors out. -/
theorem C6_pagination_witness :
    describe_clusters
      [ Except.ok { cache_clusters := some [
            { cache_cluster_id := some "a", cache_node_type := none
            , preferred_availability_zone := none, engine := none
            , replication_group_id := none, cache_nodes := none }
          , { cache_cluster_id := some "b", cache_node_type := none
            , preferred_availability_zone := none, engine := none
            , replication_group_id := none, cache_nodes := none } ] }
      , Except.ok { cache_clusters := none }
      , Except.ok { cache_clusters := some [
            { cache_cluster_id := some "c", cache_node_type := none
            , preferred_availability_zone := none, engine := none
            , replication_group_id := none, cache_nodes := none } ] } ]
      = Except.ok
          [ { cache_cluster_id := some "a", cache_node_type := none
            , preferred_availability_zone := none, engine := none
            , replication_group_id := none, cache_nodes := none }
          , { cache_cluster_id := some "b", cache_node_type := none
            , preferred_availability_zone := none, engine := none
            , replication_group_id := none, cache_nodes := none }
          , { cache_cluster_id := some "c", cache_node_type := none
            , preferred_availability_zone := none, engine := none
            , replication_group_id := none, cache_nodes := none } ]
    ∧ exceptIsError (describe_clusters
        [ Except.ok { cache_clusters := none }
        , Except.error "boom"
        , Except.ok { cache_clusters := none } ]) = true := by
  constructor
  · exact C6_pagination.1 _
      (by
        intro p hp
        simp only [List.mem_cons, List.not_mem_nil, or_false] at hp
        rcases hp with rfl | rfl | rfl <;> exact ⟨_, rfl⟩)
  · obtain ⟨e, he⟩ := C6_pagination.2
      [ Except.ok { cache_clusters := none }
      , Except.error "boom"
      , Except.ok { cache_clusters := none } ] "boom" (by simp)
    rw [he]
    rfl

theorem collectNodeResources_ok_initial (region : String)
    (md : ElastiCacheMetadata) (nodes : List CacheNode) (rs : List Resource)
    (h : collectNodeResources region md nodes = Except.ok rs) :
    ∀ er, Resource.elastiCache er ∈ rs →
      er.metrics = [] ∧ er.metric_period_seconds = 0 := by
  induction nodes generalizing rs with
  | nil =>
      simp only [collectNodeResources, Except.ok.injEq] at h
      subst h
      intro er hmem
      simp at hmem
  | cons node rest ih =>
      cases hid : node.cache_node_id with
      | none =>
          simp only [collectNodeResources, hid, okOr, error_bind] at h
          exact Except.noConfusion h
      | some cid =>
          cases hrest : collectNodeResources region md rest with
          | error e =>
              simp only [collectNodeResources, hid, okOr, ok_bind, hrest,
                error_bind] at h
              exact Except.noConfusion h
          | ok rs2 =>
              simp only [collectNodeResources, hid, okOr, ok_bind, hrest,
                Except.ok.injEq] at h
              subst h
              intro er hmem
              rcases List.mem_cons.mp hmem with heq | hmem2
              · obtain rfl := (Resource.elastiCache.inj heq.symm)
                exact ⟨rfl, rfl⟩
              · exact ih rs2 hrest er hmem2

theorem processCluster_ok_initial (region : String) (c : CacheCluster)
    (rs : List Resource) (h : processCluster region c = Except.ok rs) :
    ∀ er, Resource.elastiCache er ∈ rs →
      er.metrics = [] ∧ er.metric_period_seconds = 0 := by
  obtain ⟨cid, cnt, caz, ceng, crg, cnodes⟩ := c
  cases cid with
  | none =>
      simp only [processCluster, okOr, error_bind] at h
      exact Except.noConfusion h
  | some id =>
  cases cnt with
  | none =>
      simp only [processCluster, okOr, ok_bind, error_bind] at h
      exact Except.noConfusion h
  | some nt =>
  cases caz with
  | none =>
      simp only [processCluster, okOr, ok_bind, error_bind] at h
      exact Except.noConfusion h
  | some az =>
  cases ceng with
  | none =>
      simp only [processCluster, okOr, ok_bind, error_bind] at h
      exact Except.noConfusion h
  | some eng =>
  by_cases hr : eng = "redis"
  · subst hr
    simp only [processCluster, okOr, ok_bind, Except.ok.injEq] at h
    subst h
    intro er hmem
    rcases List.mem_cons.mp hmem with heq | hmem2
    · obtain rfl := (Resource.elastiCache.inj heq.symm)
      exact ⟨rfl, rfl⟩
    · simp at hmem2
  · by_cases hm : eng = "memcached"
    · subst hm
      simp only [processCluster, okOr, ok_bind] at h
      cases cnodes with
      | none =>
          simp only [Except.ok.injEq] at h
          subst h
          intro er hmem
          simp at hmem
      | some nodes => exact collectNodeResources_ok_initial region _ nodes rs h
    · rw [processCluster_unknown_engine region id nt az eng crg cnodes hr hm] at h
      exact absurd h (by simp)

theorem collectResources_ok_initial (region : String)
    (clusters : List CacheCluster) (rs : List Resource)
    (h : collectResources region clusters = Except.ok rs) :
    ∀ er, Resource.elastiCache er ∈ rs →
      er.metrics = [] ∧ er.metric_period_seconds = 0 := by
  induction clusters generalizing rs with
  | nil =>
      simp only [collectResources, Except.ok.injEq] at h
      subst h
      intro er hmem
      simp at hmem
  | cons d rest ih =>
      cases hd : processCluster region d with
      | error e =>
          simp only [collectResources, hd, error_bind] at h
          exact Except.noConfusion h
      | ok rs1 =>
          cases hrest : collectResources region rest with
          | error e =>
              simp only [collectResources, hd, ok_bind, hrest, error_bind] at h
              exact Except.noConfusion h
          | ok rs2 =>
              simp only [collectResources, hd, ok_bind, hrest,
                Except.ok.injEq] at h
              subst h
              intro er hmem
              rcases List.mem_append.mp hmem with hmem1 | hmem2
              · exact processCluster_ok_initial region d rs1 hd er hmem1
              · exact ih rs2 hrest er hmem2

theorem append_metrics_counts
    (query : MetricTarget → String × List String → Except CliError (List Metric))
    (period : Int) (er : ElastiCacheResource) (t : TrackedResource)
    (h : append_metrics query period
      { resource := er, metrics_set_count := 0, period_set_count := 0 }
      = Except.ok t) :
    t.metrics_set_count = 1 ∧ t.period_set_count = 1 := by
  cases hct : create_metric_targets er with
  | error e =>
      simp only [append_metrics, hct, error_bind] at h
      exact Except.noConfusion h
  | ok targets =>
      cases hres : targets.mapM (fun target => target.targets.mapM (query target)) with
      | error e =>
          simp only [append_metrics, hct, ok_bind, hres, error_bind] at h
          exact Except.noConfusion h
      | ok results =>
          simp only [append_metrics, hct, ok_bind, hres, Except.ok.injEq] at h
          subst h
          exact ⟨rfl, rfl⟩

theorem sendResources_counts
    (query : MetricTarget → String × List String → Except CliError (List Metric))
    (period : Int) (rs : List Resource) (sent : List TrackedResource)
    (h : sendResources query period rs = Except.ok sent) :
    ∀ t ∈ sent, t.metrics_set_count = 1 ∧ t.period_set_count = 1 := by
  induction rs generalizing sent with
  | nil =>
      simp only [sendResources, Except.ok.injEq] at h
      subst h
      intro t hmem
      simp at hmem
  | cons r rest ih =>
      cases r with
      | dynamoDb =>
          simp only [sendResources] at h
          exact Except.noConfusion h
      | elastiCache er =>
          cases ha : append_metrics query period
              { resource := er, metrics_set_count := 0, period_set_count := 0 } with
          | error e =>
              simp only [sendResources, ha, error_bind] at h
              exact Except.noConfusion h
          | ok t0 =>
              cases hrest : sendResources query period rest with
              | error e =>
                  simp only [sendResources, ha, ok_bind, hrest, error_bind] at h
                  exact Except.noConfusion h
              | ok ts =>
                  simp only [sendResources, ha, ok_bind, hrest,
                    Except.ok.injEq] at h
                  subst h
                  intro t hmem
                  rcases List.mem_cons.mp hmem with heq | hmem2
                  · subst heq
                    exact append_metrics_counts query period er t ha
                  · exact ih ts hrest t hmem2

/-- C8: every resource produced by discovery starts with an empty metrics list
and a zero metric period, and the enrichment-and-send loop invokes
`set_metrics` and `set_metric_period_seconds` exactly once on every resource
it sends, never touching them again afterwards. -/
theorem C8_metrics_set_once :
    (∀ (region : String) (clusters : List CacheCluster) (rs : List Resource),
      collectResources region clusters = Except.ok rs →
      ∀ er, Resource.elastiCache er ∈ rs →
        er.metrics = [] ∧ er.metric_period_seconds = 0)
    ∧ (∀ (query : MetricTarget → String × List String →
          Except CliError (List Metric))
        (period : Int) (rs : List Resource) (sent : List TrackedResource),
      sendResources query period rs = Except.ok sent →
      ∀ t ∈ sent, t.metrics_set_count = 1 ∧ t.period_set_count = 1) :=
  ⟨collectResources_ok_initial, sendResources_counts⟩

/-- Witness for C8: a discovered memcached node resource starts empty/zero,
and after the send loop its counters are exactly one. -/
theorem C8_metrics_set_once_witness :
    (ElastiCacheResource.metrics
        { resource_type := ResourceType.elastiCacheMemcachedNode
        , region := "us-west-2", id := "0001", metrics := []
        , metric_period_seconds := 0
        , metadata := { cluster_id := "memc1", engine := "memcached"
                      , cache_node_type := "cache.t3.micro"
                      , preferred_az := "us-west-2a"
                      , cluster_mode_enabled := false } } = []
      ∧ ElastiCacheResource.metric_period_seconds
        { resource_type := ResourceType.elastiCacheMemcachedNode
        , region := "us-west-2", id := "0001", metrics := []
        , metric_period_seconds := 0
        , metadata := { cluster_id := "memc1", engine := "memcached"
                      , cache_node_type := "cache.t3.micro"
                      , preferred_az := "us-west-2a"
                      , cluster_mode_enabled := false } } = 0)
    ∧ (TrackedResource.metrics_set_count
        { resource := { resource_type := ResourceType.elastiCacheMemcachedNode
                      , region := "us-west-2", id := "0001", metrics := []
                      , metric_period_seconds := 2592000
                      , metadata := { cluster_id := "memc1", engine := "memcached"
                                    , cache_node_type := "cache.t3.micro"
                                    , preferred_az := "us-west-2a"
                                    , cluster_mode_enabled := false } }
        , metrics_set_count := 1, period_set_count := 1 } = 1
      ∧ TrackedResource.period_set_count
        { resource := { resource_type := ResourceType.elastiCacheMemcachedNode
                      , region := "us-west-2", id := "0001", metrics := []
                      , metric_period_seconds := 2592000
                      , metadata := { cluster_id := "memc1", engine := "memcached"
                                    , cache_node_type := "cache.t3.micro"
                                    , preferred_az := "us-west-2a"
                                    , cluster_mode_enabled := false } }
        , metrics_set_count := 1, period_set_count := 1 } = 1) := by
  constructor
  · exact C8_metrics_set_once.1 "us-west-2"
      [ { cache_cluster_id := some "memc1", cache_node_type := some "cache.t3.micro"
        , preferred_availability_zone := some "us-west-2a", engine := some "memcached"
        , replication_group_id := none
        , cache_nodes := some [ { cache_node_id := some "0001" } ] } ]
      [ Resource.elastiCache
          { resource_type := ResourceType.elastiCacheMemcachedNode
          , region := "us-west-2", id := "0001", metrics := []
          , metric_period_seconds := 0
          , metadata := { cluster_id := "memc1", engine := "memcached"
                        , cache_node_type := "cache.t3.micro"
                        , preferred_az := "us-west-2a"
                        , cluster_mode_enabled := false } } ]
      rfl _ (by simp)
  · exact C8_metrics_set_once.2 (fun _ _ => Except.ok []) 2592000
      [ Resource.elastiCache
          { resource_type := ResourceType.elastiCacheMemcachedNode
          , region := "us-west-2", id := "0001", metrics := []
          , metric_period_seconds := 0
          , metadata := { cluster_id := "memc1", engine := "memcached"
                        , cache_node_type := "cache.t3.micro"
                        , preferred_az := "us-west-2a"
                        , cluster_mode_enabled := false } } ]
      [ { resource := { resource_type := ResourceType.elastiCacheMemcachedNode
                      , region := "us-west-2", id := "0001", metrics := []
                      , metric_period_seconds := 2592000
                      , metadata := { cluster_id := "memc1", engine := "memcached"
                                    , cache_node_type := "cache.t3.micro"
                                    , preferred_az := "us-west-2a"
                                    , cluster_mode_enabled := false } }
        , metrics_set_count := 1, period_set_count := 1 } ]
      rfl _ (by simp)

theorem findFirstMatching_none (expected : String) (ls : List String)
    (h : ∀ l ∈ ls, l ≠ expected) :
    ∀ k, findFirstMatching expected k ls = none := by
  induction ls with
  | nil => intro k; rfl
  | cons l rest ih =>
      intro k
      have hl : l ≠ expected := h l (List.mem_cons_self l rest)
      simp only [findFirstMatching, hl, if_false, if_neg hl]
      exact ih (fun q hq => h q (List.mem_cons_of_mem l hq)) (k + 1)

theorem update_credentials_lines_foldl (credentials : Credentials)
    (ns : List Nat) :
    ∀ contents, update_credentials_lines credentials ns contents
      = Except.ok (ns.foldl
          (fun cs n => cs.set n (token_line_replace credentials (cs.getD n "")))
          contents) := by
  induction ns with
  | nil => intro contents; rfl
  | cons n rest ih =>
      intro contents
      simp only [update_credentials_lines, replace_credentials_value, ok_bind,
        List.foldl_cons]
      exact ih _

theorem foldl_set_range'_shift (credentials : Credentials) (m : Nat) :
    ∀ (k : Nat) (a : String) (cs : List String),
      (List.range' (k + 1) m).foldl
        (fun cs n => cs.set n (token_line_replace credentials (cs.getD n "")))
        (a :: cs)
      = a :: (List.range' k m).foldl
          (fun cs n => cs.set n (token_line_replace credentials (cs.getD n "")))
          cs := by
  induction m with
  | zero => intro k a cs; rfl
  | succ m ih =>
      intro k a cs
      rw [List.range'_succ, List.range'_succ]
      simp only [List.foldl_cons, List.set_cons_succ, List.getD_cons_succ]
      exact ih (k + 1) a (cs.set k (token_line_replace credentials (cs.getD k "")))

theorem foldl_set_range'_map (credentials : Credentials) :
    ∀ cs : List String,
      (List.range' 0 cs.length).foldl
        (fun cs n => cs.set n (token_line_replace credentials (cs.getD n "")))
        cs
      = cs.map (token_line_replace credentials) := by
  intro cs
  induction cs with
  | nil => rfl
  | cons c rest ih =>
      rw [List.length_cons, List.range'_succ]
      simp only [List.foldl_cons, List.set_cons_zero, List.getD_cons_zero]
      rw [foldl_set_range'_shift credentials rest.length 0
        (token_line_replace credentials c) rest, ih]
      rfl

/-- C10: when no line of the credentials file is exactly `[profile_name]`,
`update_credentials_profile` succeeds and applies the token replacement to the
whole line range 0..length: every line matching the token regex — whichever
profile it belongs to — becomes `token=<new token>`, and every other line is
unchanged. -/
theorem C10_absent_profile_rewrites_all (profile_name : String)
    (file_contents : List String) (credentials : Credentials)
    (h : ∀ l ∈ file_contents, l ≠ "[" ++ profile_name ++ "]") :
    update_credentials_profile profile_name file_contents credentials
      = Except.ok (file_contents.map (token_line_replace credentials)) := by
  have hfind := findFirstMatching_none ("[" ++ profile_name ++ "]")
    file_contents h 0
  rw [update_credentials_profile, find_line_numbers_for_profile, hfind]
  simp only [Nat.sub_zero]
  rw [update_credentials_lines_foldl, foldl_set_range'_map]

/-- Witness for C10: a file with a different profile header, two token lines
and one other line, updated for the absent profile "default". -/
theorem C10_absent_profile_rewrites_all_witness :
    update_credentials_profile "default"
      ["[taco]", "token=old", "x=1", "token = a.b-c "] { token := "new" }
      = Except.ok ["[taco]", "token=new", "x=1", "token=new"] :=
  C10_absent_profile_rewrites_all "default"
    ["[taco]", "token=old", "x=1", "token = a.b-c "] { token := "new" }
    (by decide)

/-! ### Round-trip lemmas for the report encoding -/

theorem expectChars_append (l : List Char) :
    ∀ r, expectChars l (l ++ r) = some r := by
  induction l with
  | nil => intro r; rfl
  | cons c cs ih =>
      intro r
      simp only [List.cons_append, expectChars, if_pos rfl]
      exact ih r

theorem hexDigit_inv (x : Nat) (h : x < 16) :
    isHexDigitChar (hexDigitChar x) = true ∧ hexVal (hexDigitChar x) = x := by
  interval_cases x <;> exact ⟨by decide, by decide⟩

theorem parseStringBody_escape (cs : List Char) :
    ∀ rest, parseStringBody (cs.flatMap escapeChar ++ ('"' :: rest))
      = some (cs, rest) := by
  induction cs with
  | nil => intro rest; rfl
  | cons c tail ih =>
      intro rest
      by_cases hq : c = '"'
      · subst hq
        have hrw : ('"' :: tail).flatMap escapeChar ++ ('"' :: rest)
            = '\\' :: '"' :: (tail.flatMap escapeChar ++ ('"' :: rest)) := by
          simp [escapeChar]
        rw [hrw]
        show Option.map (fun p => ('"' :: p.1, p.2))
          (parseStringBody (tail.flatMap escapeChar ++ ('"' :: rest)))
          = some ('"' :: tail, rest)
        rw [ih rest]
        rfl
      · by_cases hb : c = '\\'
        · subst hb
          have hrw : ('\\' :: tail).flatMap escapeChar ++ ('"' :: rest)
              = '\\' :: '\\' :: (tail.flatMap escapeChar ++ ('"' :: rest)) := by
            simp [escapeChar]
          rw [hrw]
          show Option.map (fun p => ('\\' :: p.1, p.2))
            (parseStringBody (tail.flatMap escapeChar ++ ('"' :: rest)))
            = some ('\\' :: tail, rest)
          rw [ih rest]
          rfl
        · by_cases hc : c.toNat < 32
          · have h1 : c.toNat / 16 < 16 := by omega
            have h2 : c.toNat % 16 < 16 := by omega
            obtain ⟨hh1, hv1⟩ := hexDigit_inv (c.toNat / 16) h1
            obtain ⟨hh2, hv2⟩ := hexDigit_inv (c.toNat % 16) h2
            have hrw : (c :: tail).flatMap escapeChar ++ ('"' :: rest)
                = '\\' :: 'u' :: '0' :: '0' :: hexDigitChar (c.toNat / 16)
                  :: hexDigitChar (c.toNat % 16)
                  :: (tail.flatMap escapeChar ++ ('"' :: rest)) := by
              simp only [List.flatMap_cons, escapeChar, if_neg hq, if_neg hb,
                if_pos hc, List.cons_append, List.append_assoc, List.nil_append]
            rw [hrw]
            show (if isHexDigitChar (hexDigitChar (c.toNat / 16))
                    ∧ isHexDigitChar (hexDigitChar (c.toNat % 16)) then
                Option.map
                  (fun p => (Char.ofNat
                    (16 * hexVal (hexDigitChar (c.toNat / 16))
                      + hexVal (hexDigitChar (c.toNat % 16))) :: p.1, p.2))
                  (parseStringBody (tail.flatMap escapeChar ++ ('"' :: rest)))
              else none) = some (c :: tail, rest)
            rw [hv1, hv2, if_pos ⟨hh1, hh2⟩, ih rest]
            have hval : 16 * (c.toNat / 16) + c.toNat % 16 = c.toNat := by omega
            rw [hval, Char.ofNat_toNat]
            rfl
          · have hrw : (c :: tail).flatMap escapeChar ++ ('"' :: rest)
                = c :: (tail.flatMap escapeChar ++ ('"' :: rest)) := by
              simp only [List.flatMap_cons, escapeChar, if_neg hq, if_neg hb,
                if_neg hc, List.cons_append, List.append_assoc,
                List.singleton_append, List.nil_append]
            rw [hrw, parseStringBody.eq_7 c _ hq (fun _ h _ => hb h)
              (fun _ h _ => hb h) (fun _ _ _ h _ => hb h) hb, ih rest]
            rfl

theorem parseJsonString_roundtrip (str : String) :
    ∀ rest, parseJsonString (jsonStringChars str ++ rest) = some (str, rest) := by
  intro rest
  have hrw : jsonStringChars str ++ rest
      = '"' :: (str.toList.flatMap escapeChar ++ ('"' :: rest)) := by
    simp [jsonStringChars]
  rw [hrw]
  show Option.map (fun p => (String.mk p.1, p.2))
    (parseStringBody (str.toList.flatMap escapeChar ++ ('"' :: rest)))
    = some (str, rest)
  rw [parseStringBody_escape str.toList rest]
  rfl

theorem decDigitChar_spec (d : Nat) (h : d < 10) :
    (decDigitChar d).isDigit = true ∧ digitVal (decDigitChar d) = d
      ∧ decDigitChar d ≠ '-' := by
  interval_cases d <;> exact ⟨by decide, by decide, by decide⟩

theorem natDigits_spec (n : Nat) :
    natDigits n ≠ [] ∧ (∀ c ∈ natDigits n, c.isDigit = true) := by
  induction n using Nat.strong_induction_on with
  | _ n ih =>
      by_cases h : n < 10
      · rw [natDigits, dif_pos h]
        refine ⟨by simp, ?_⟩
        intro c hc
        simp only [List.mem_singleton] at hc
        subst hc
        exact (decDigitChar_spec n h).1
      · rw [natDigits, dif_neg h]
        have hlt : n / 10 < n := Nat.div_lt_self (by omega) (by omega)
        obtain ⟨hne, hdig⟩ := ih (n / 10) hlt
        refine ⟨by simp [hne], ?_⟩
        intro c hc
        rcases List.mem_append.mp hc with hc1 | hc2
        · exact hdig c hc1
        · simp only [List.mem_singleton] at hc2
          subst hc2
          exact (decDigitChar_spec (n % 10) (Nat.mod_lt n (by omega))).1

theorem parseDigitsAcc_append (ds : List Char) :
    ∀ (acc : Nat) (rest : List Char), (∀ c ∈ ds, c.isDigit = true) →
      (∀ c, rest.head? = some c → c.isDigit = false) →
      parseDigitsAcc acc (ds ++ rest)
        = (ds.foldl (fun a c => a * 10 + digitVal c) acc, rest) := by
  induction ds with
  | nil =>
      intro acc rest _ hrest
      cases rest with
      | nil => rfl
      | cons c r =>
          have hc := hrest c rfl
          simp only [List.nil_append, parseDigitsAcc, hc, Bool.false_eq_true,
            if_false, List.foldl_nil]
  | cons d ds ih =>
      intro acc rest hds hrest
      have hd : d.isDigit = true := hds d (List.mem_cons_self d ds)
      simp only [List.cons_append, parseDigitsAcc, hd, if_true, List.foldl_cons]
      exact ih _ rest (fun c hc => hds c (List.mem_cons_of_mem d hc)) hrest

theorem natDigits_foldl (n : Nat) :
    ∀ acc, (natDigits n).foldl (fun a c => a * 10 + digitVal c) acc
      = acc * 10 ^ (natDigits n).length + n := by
  induction n using Nat.strong_induction_on with
  | _ n ih =>
      intro acc
      by_cases h : n < 10
      · rw [natDigits, dif_pos h]
        simp only [List.foldl_cons, List.foldl_nil, List.length_singleton,
          pow_one]
        rw [(decDigitChar_spec n h).2.1]
      · rw [natDigits, dif_neg h]
        have hlt : n / 10 < n := Nat.div_lt_self (by omega) (by omega)
        rw [List.foldl_append, List.foldl_cons, List.foldl_nil,
          ih (n / 10) hlt acc, List.length_append, List.length_singleton,
          (decDigitChar_spec (n % 10) (Nat.mod_lt n (by omega))).2.1]
        have hpow : acc * 10 ^ ((natDigits (n / 10)).length + 1)
            = acc * 10 ^ (natDigits (n / 10)).length * 10 := by ring
        rw [hpow]
        omega

theorem parseNat_natDigits (n : Nat) (rest : List Char)
    (hrest : ∀ c, rest.head? = some c → c.isDigit = false) :
    parseNat (natDigits n ++ rest) = some (n, rest) := by
  obtain ⟨hne, hdig⟩ := natDigits_spec n
  cases hnd : natDigits n with
  | nil => exact absurd hnd hne
  | cons c ds =>
      have hc : c.isDigit = true := by
        apply hdig
        rw [hnd]
        exact List.mem_cons_self c ds
      have hds : ∀ x ∈ ds, x.isDigit = true := by
        intro x hx
        apply hdig
        rw [hnd]
        exact List.mem_cons_of_mem c hx
      have hfold := natDigits_foldl n 0
      rw [hnd] at hfold
      simp only [List.foldl_cons, Nat.zero_mul, Nat.zero_add] at hfold
      rw [List.cons_append, parseNat, if_pos hc,
        parseDigitsAcc_append ds (digitVal c) rest hds hrest, hfold]

theorem natDigits_head_not (n : Nat) (anything : List Char) (c : Char)
    (hc : (natDigits n ++ anything).head? = some c) :
    c.isDigit = true ∧ c ≠ '-' ∧ c ≠ ']' := by
  obtain ⟨hne, hdig⟩ := natDigits_spec n
  cases hnd : natDigits n with
  | nil => exact absurd hnd hne
  | cons d ds =>
      rw [hnd] at hc
      simp only [List.cons_append, List.head?_cons, Option.some.injEq] at hc
      have hd : d.isDigit = true := by
        apply hdig
        rw [hnd]
        exact List.mem_cons_self d ds
      rw [← hc]
      refine ⟨hd, fun heq => ?_, fun heq => ?_⟩
      · rw [heq] at hd
        exact absurd hd (by decide)
      · rw [heq] at hd
        exact absurd hd (by decide)

theorem parseInt_intChars (i : Int) (rest : List Char)
    (hrest : ∀ c, rest.head? = some c → c.isDigit = false) :
    parseInt (intChars i ++ rest) = some (i, rest) := by
  by_cases hneg : i < 0
  · rw [intChars, if_pos hneg, List.cons_append, parseInt,
      parseNat_natDigits i.natAbs rest hrest, Option.map_some']
    have hval : (-(i.natAbs : Int)) = i := by omega
    rw [hval]
  · rw [intChars, if_neg hneg]
    cases hnd : natDigits i.natAbs with
    | nil => exact absurd hnd (natDigits_spec i.natAbs).1
    | cons c ds =>
        have hcons : natDigits i.natAbs ++ rest = c :: (ds ++ rest) := by
          rw [hnd]
          rfl
        have hne : c ≠ '-' := by
          have hh := natDigits_head_not i.natAbs rest c
            (by rw [hcons]; rfl)
          exact hh.2.1
        have hnotdash : ∀ r, c :: (ds ++ rest) = '-' :: r → False := by
          intro r h
          rw [List.cons.injEq] at h
          exact hne h.1
        rw [List.cons_append, parseInt.eq_2 (c :: (ds ++ rest)) hnotdash, ← hcons,
          parseNat_natDigits i.natAbs rest hrest, Option.map_some']
        have hval : ((i.natAbs : Int)) = i := by omega
        rw [hval]

theorem parseBool_boolChars (b : Bool) (rest : List Char) :
    parseBool (boolChars b ++ rest) = some (b, rest) := by
  cases b <;> rfl

theorem parseItems_roundtrip (p : List Char → Option (α × List Char))
    (ser : α → List Char) (xs : List α) :
    ∀ (x : α) (fuel : Nat), xs.length < fuel →
    (∀ y, (y = x ∨ y ∈ xs) →
      ∀ out, out.head? = some ',' ∨ out.head? = some ']' →
      p (ser y ++ out) = some (y, out)) →
    ∀ out, parseItems p fuel
        (ser x ++ (xs.flatMap (fun y => ',' :: ser y) ++ (']' :: out)))
      = some (x :: xs, out) := by
  induction xs with
  | nil =>
      intro x fuel hfuel hp out
      cases fuel with
      | zero => omega
      | succ f =>
          have hin : ser x ++ (([] : List α).flatMap (fun y => ',' :: ser y)
              ++ (']' :: out)) = ser x ++ (']' :: out) := by simp
          rw [hin, parseItems.eq_2,
            hp x (Or.inl rfl) (']' :: out) (Or.inr rfl)]
          rfl
  | cons y ys ih =>
      intro x fuel hfuel hp out
      cases fuel with
      | zero => simp at hfuel
      | succ f =>
          have hin : ser x ++ ((y :: ys).flatMap (fun z => ',' :: ser z)
                ++ (']' :: out))
              = ser x ++ (',' :: (ser y
                  ++ (ys.flatMap (fun z => ',' :: ser z) ++ (']' :: out)))) := by
            simp [List.flatMap_cons, List.append_assoc]
          rw [hin, parseItems.eq_2,
            hp x (Or.inl rfl)
              (',' :: (ser y ++ (ys.flatMap (fun z => ',' :: ser z)
                ++ (']' :: out))))
              (Or.inl rfl)]
          have hrec := ih y f (by simp at hfuel; omega)
            (fun z hz => hp z (Or.inr (List.mem_cons.mpr hz)))
            out
          show (do
            let q ← parseItems p f (ser y
              ++ (ys.flatMap (fun z => ',' :: ser z) ++ (']' :: out)))
            match q with
            | (zs, s3) => some (x :: zs, s3)) = some (x :: y :: ys, out)
          rw [hrec]
          rfl

theorem parseListOf_roundtrip (p : List Char → Option (α × List Char))
    (ser : α → List Char) (xs : List α) (fuel : Nat)
    (hfuel : xs.length ≤ fuel)
    (hp : ∀ y ∈ xs, ∀ out, out.head? = some ',' ∨ out.head? = some ']' →
      p (ser y ++ out) = some (y, out))
    (hser : ∀ y ∈ xs, ∃ c cs, ser y = c :: cs ∧ c ≠ ']') :
    ∀ out, parseListOf p fuel (serList ser xs ++ out) = some (xs, out) := by
  cases xs with
  | nil => intro out; rfl
  | cons x rest =>
      intro out
      obtain ⟨c, cs, hx, hc⟩ := hser x (List.mem_cons_self x rest)
      have hin : serList ser (x :: rest) ++ out
          = '[' :: (ser x ++ (rest.flatMap (fun z => ',' :: ser z)
              ++ (']' :: out))) := by
        simp [serList, List.append_assoc]
      rw [hin]
      have hnotempty : ∀ r, ser x ++ (rest.flatMap (fun z => ',' :: ser z)
          ++ (']' :: out)) = ']' :: r → False := by
        intro r h
        rw [hx, List.cons_append, List.cons.injEq] at h
        exact hc h.1
      rw [parseListOf.eq_2 p fuel _ hnotempty]
      exact parseItems_roundtrip p ser rest x fuel (by simpa using hfuel)
        (fun y hy out2 hout2 => hp y (List.mem_cons.mpr hy) out2 hout2) out

theorem some_bind (a : α) (f : α → Option β) : (some a >>= f) = f a := rfl

theorem intChars_head (i : Int) :
    ∃ c cs, intChars i = c :: cs ∧ c ≠ ']' := by
  by_cases hneg : i < 0
  · exact ⟨'-', natDigits i.natAbs, by rw [intChars, if_pos hneg], by decide⟩
  · cases hnd : natDigits i.natAbs with
    | nil => exact absurd hnd (natDigits_spec i.natAbs).1
    | cons c ds =>
        refine ⟨c, ds, by rw [intChars, if_neg hneg, hnd], ?_⟩
        have hc : c.isDigit = true := by
          apply (natDigits_spec i.natAbs).2
          rw [hnd]
          exact List.mem_cons_self c ds
        intro heq
        rw [heq] at hc
        exact absurd hc (by decide)

theorem delim_not_digit (out : List Char)
    (h : out.head? = some ',' ∨ out.head? = some ']') :
    ∀ c, out.head? = some c → c.isDigit = false := by
  intro c hc
  rcases h with h | h <;> rw [hc] at h <;>
    simp only [Option.some.injEq] at h <;> subst h <;> decide

theorem parseMetric_roundtrip (fuel : Nat) (m : Metric)
    (hfuel : m.values.length ≤ fuel) :
    ∀ out, parseMetric fuel (serMetric m ++ out) = some (m, out) := by
  intro out
  have h1 : serMetric m ++ out
      = (leftBrace :: "\"name\":".toList)
        ++ (jsonStringChars m.name
          ++ (",\"values\":".toList
            ++ (serList intChars m.values ++ ([rightBrace] ++ out)))) := by
    simp [serMetric, List.append_assoc]
  have hlist := parseListOf_roundtrip parseInt intChars m.values fuel hfuel
    (fun i _ out2 hout2 => parseInt_intChars i out2 (delim_not_digit out2 hout2))
    (fun i _ => intChars_head i)
    ([rightBrace] ++ out)
  rw [h1]
  simp only [parseMetric, expectChars_append, parseJsonString_roundtrip,
    some_bind, hlist]

theorem parseMetadata_roundtrip (md : ElastiCacheMetadata) :
    ∀ out, parseMetadata (serMetadata md ++ out) = some (md, out) := by
  intro out
  have h1 : serMetadata md ++ out
      = (leftBrace :: "\"clusterId\":".toList)
        ++ (jsonStringChars md.cluster_id
          ++ (",\"engine\":".toList
            ++ (jsonStringChars md.engine
              ++ (",\"cacheNodeType\":".toList
                ++ (jsonStringChars md.cache_node_type
                  ++ (",\"preferredAz\":".toList
                    ++ (jsonStringChars md.preferred_az
                      ++ (",\"clusterModeEnabled\":".toList
                        ++ (boolChars md.cluster_mode_enabled
                          ++ ([rightBrace] ++ out)))))))))) := by
    simp [serMetadata, List.append_assoc]
  rw [h1]
  simp only [parseMetadata, expectChars_append, parseJsonString_roundtrip,
    parseBool_boolChars, some_bind]

theorem resourceTypeOfName_name (rt : ResourceType) :
    resourceTypeOfName (resourceTypeName rt) = some rt := by
  cases rt <;> rfl

theorem parseResourceFields_roundtrip (fuel : Nat) (er : ElastiCacheResource)
    (hfm : er.metrics.length ≤ fuel)
    (hfv : ∀ m ∈ er.metrics, m.values.length ≤ fuel) :
    ∀ out, parseResourceFields fuel er.resource_type
      (",\"region\":".toList
        ++ (jsonStringChars er.region
          ++ (",\"id\":".toList
            ++ (jsonStringChars er.id
              ++ (",\"metrics\":".toList
                ++ (serList serMetric er.metrics
                  ++ (",\"metricPeriodSeconds\":".toList
                    ++ (intChars er.metric_period_seconds
                      ++ (",\"metadata\":".toList
                        ++ (serMetadata er.metadata
                          ++ ([rightBrace] ++ out)))))))))))
      = some (Resource.elastiCache er, out) := by
  intro out
  have hmetrics := parseListOf_roundtrip (parseMetric fuel) serMetric
    er.metrics fuel hfm
    (fun m hm out2 _ => parseMetric_roundtrip fuel m (hfv m hm) out2)
    (fun m _ => ⟨leftBrace,
      "\"name\":".toList ++ jsonStringChars m.name
        ++ ",\"values\":".toList ++ serList intChars m.values ++ [rightBrace],
      rfl, by decide⟩)
    (",\"metricPeriodSeconds\":".toList
      ++ (intChars er.metric_period_seconds
        ++ (",\"metadata\":".toList
          ++ (serMetadata er.metadata ++ ([rightBrace] ++ out)))))
  have hint := parseInt_intChars er.metric_period_seconds
    (",\"metadata\":".toList
      ++ (serMetadata er.metadata ++ ([rightBrace] ++ out)))
    (fun c hc => by
      rw [show ((",\"metadata\":".toList
          ++ (serMetadata er.metadata ++ ([rightBrace] ++ out))).head?)
        = some ',' from rfl] at hc
      simp only [Option.some.injEq] at hc
      subst hc
      decide)
  simp only [parseResourceFields, expectChars_append,
    parseJsonString_roundtrip, some_bind, hmetrics, hint,
    parseMetadata_roundtrip]

theorem parseResource_roundtrip (fuel : Nat) (r : Resource)
    (hfuel : resourceFuelOK fuel r) :
    ∀ out, parseResource fuel (serResource r ++ out) = some (r, out) := by
  cases r with
  | dynamoDb => intro out; rfl
  | elastiCache er =>
      intro out
      obtain ⟨hfm, hfv⟩ := hfuel
      have h1 : serResource (Resource.elastiCache er) ++ out
          = (leftBrace :: "\"resourceType\":".toList)
            ++ (jsonStringChars (resourceTypeName er.resource_type)
              ++ (',' :: ("\"region\":".toList
                ++ (jsonStringChars er.region
                  ++ (",\"id\":".toList
                    ++ (jsonStringChars er.id
                      ++ (",\"metrics\":".toList
                        ++ (serList serMetric er.metrics
                          ++ (",\"metricPeriodSeconds\":".toList
                            ++ (intChars er.metric_period_seconds
                              ++ (",\"metadata\":".toList
                                ++ (serMetadata er.metadata
                                  ++ ([rightBrace] ++ out))))))))))))) := by
        simp [serResource, serElastiCacheResource, List.append_assoc]
      have hfields := parseResourceFields_roundtrip fuel er hfm hfv out
      rw [h1]
      simp only [parseResource, expectChars_append, parseJsonString_roundtrip,
        some_bind, resourceTypeOfName_name]
      exact hfields

theorem serResource_head (r : Resource) :
    ∃ c cs, serResource r = c :: cs ∧ c ≠ ']' := by
  cases r with
  | elastiCache er =>
      exact ⟨leftBrace, _, rfl, by decide⟩
  | dynamoDb => exact ⟨leftBrace, _, rfl, by decide⟩

theorem parseDataFormat_roundtrip (fuel : Nat) (rs : List Resource)
    (hlen : rs.length ≤ fuel) (hres : ∀ r ∈ rs, resourceFuelOK fuel r) :
    parseDataFormat fuel (serDataFormat rs) = some rs := by
  have h1 : serDataFormat rs
      = (leftBrace :: "\"resources\":".toList)
        ++ (serList serResource rs ++ [rightBrace]) := by
    simp [serDataFormat, List.append_assoc]
  have hlist := parseListOf_roundtrip (parseResource fuel) serResource rs fuel
    hlen
    (fun r hr out2 _ => parseResource_roundtrip fuel r (hres r hr) out2)
    (fun r _ => serResource_head r)
    [rightBrace]
  rw [h1]
  simp only [parseDataFormat, expectChars_append, some_bind, hlist]
  rfl

theorem flatMap_comma_length (ser : α → List Char) (xs : List α) :
    xs.length ≤ (xs.flatMap (fun y => ',' :: ser y)).length := by
  induction xs with
  | nil => simp
  | cons x rest ih =>
      simp only [List.flatMap_cons, List.length_append, List.length_cons,
        List.length_cons]
      omega

theorem flatMap_comma_length_mem (ser : α → List Char) (xs : List α) (y : α)
    (hy : y ∈ xs) :
    (ser y).length ≤ (xs.flatMap (fun z => ',' :: ser z)).length := by
  induction xs with
  | nil => simp at hy
  | cons x rest ih =>
      simp only [List.flatMap_cons, List.length_append, List.length_cons]
      rcases List.mem_cons.mp hy with rfl | hmem
      · omega
      · have := ih hmem
        omega

theorem serList_length_ge (ser : α → List Char) (xs : List α)
    (h1 : ∀ y ∈ xs, 1 ≤ (ser y).length) :
    xs.length ≤ (serList ser xs).length := by
  cases xs with
  | nil => simp [serList]
  | cons x rest =>
      have hx := h1 x (List.mem_cons_self x rest)
      have hrest := flatMap_comma_length ser rest
      simp only [serList, List.length_cons, List.length_append,
        List.length_singleton]
      omega

theorem serList_length_mem (ser : α → List Char) (xs : List α) (y : α)
    (hy : y ∈ xs) :
    (ser y).length ≤ (serList ser xs).length := by
  cases xs with
  | nil => simp at hy
  | cons x rest =>
      simp only [serList, List.length_cons, List.length_append,
        List.length_singleton]
      rcases List.mem_cons.mp hy with rfl | hmem
      · omega
      · have := flatMap_comma_length_mem ser rest y hmem
        omega

theorem serMetric_length_pos (m : Metric) : 1 ≤ (serMetric m).length := by
  simp [serMetric]

theorem intChars_length_pos (i : Int) : 1 ≤ (intChars i).length := by
  obtain ⟨c, cs, heq, _⟩ := intChars_head i
  simp [heq]

theorem serMetric_values_bound (m : Metric) :
    m.values.length ≤ (serMetric m).length := by
  have h1 := serList_length_ge intChars m.values
    (fun i _ => intChars_length_pos i)
  simp only [serMetric, List.length_cons, List.length_append]
  omega

theorem serResource_fuelOK (r : Resource) (fuel : Nat)
    (h : (serResource r).length ≤ fuel) : resourceFuelOK fuel r := by
  cases r with
  | dynamoDb => trivial
  | elastiCache er =>
      have hmlen : er.metrics.length ≤ (serList serMetric er.metrics).length :=
        serList_length_ge serMetric er.metrics
          (fun m _ => serMetric_length_pos m)
      have hout : (serList serMetric er.metrics).length
          ≤ (serResource (Resource.elastiCache er)).length := by
        simp only [serResource, serElastiCacheResource, List.length_cons,
          List.length_append]
        omega
      refine ⟨by omega, fun m hm => ?_⟩
      have h1 := serMetric_values_bound m
      have h2 := serList_length_mem serMetric er.metrics m hm
      omega

theorem serDataFormat_bounds (rs : List Resource) :
    rs.length ≤ (serDataFormat rs).length
    ∧ ∀ r ∈ rs, resourceFuelOK (serDataFormat rs).length r := by
  have houter : (serList serResource rs).length ≤ (serDataFormat rs).length := by
    simp only [serDataFormat, List.length_cons, List.length_append]
    omega
  have hge := serList_length_ge serResource rs
    (fun r _ => by obtain ⟨c, cs, heq, _⟩ := serResource_head r; simp [heq])
  refine ⟨by omega, fun r hr => ?_⟩
  have hmem := serList_length_mem serResource rs r hr
  exact serResource_fuelOK r _ (by omega)

/-- C7: writing N enriched resources produces the compression of the UTF-8
JSON serialization of the report object, and decompressing the output and
decoding the JSON yields exactly the N resource objects, field for field, in
arrival order; `compress` abstracts the gzip encoder through its defining
inverse property. -/
theorem C7_report_roundtrip {β : Type} (compress : String → β)
    (decompress : β → String)
    (hinv : ∀ s, decompress (compress s) = s) (rs : List Resource) :
    write_data_to_file compress rs = compress (data_format_json rs)
    ∧ parse_data_format (decompress (write_data_to_file compress rs))
      = some rs := by
  refine ⟨rfl, ?_⟩
  rw [write_data_to_file, hinv]
  show parseDataFormat (serDataFormat rs).length (serDataFormat rs) = some rs
  obtain ⟨h1, h2⟩ := serDataFormat_bounds rs
  exact parseDataFormat_roundtrip (serDataFormat rs).length rs h1 h2

/-- Witness for C7, with the identity as the compression pair and a two-element
report. -/
theorem C7_report_roundtrip_witness :
    parse_data_format (id (write_data_to_file id
      [ Resource.elastiCache
          { resource_type := ResourceType.elastiCacheRedisNode
          , region := "us-west-2", id := "myrepl-0001-001"
          , metrics := [ { name := "NetworkBytesIn", values := [1, -2, 0] } ]
          , metric_period_seconds := 2592000
          , metadata := { cluster_id := "myrepl", engine := "redis"
                        , cache_node_type := "cache.t3.micro"
                        , preferred_az := "us-west-2a"
                        , cluster_mode_enabled := true } }
      , Resource.dynamoDb ]))
      = some
      [ Resource.elastiCache
          { resource_type := ResourceType.elastiCacheRedisNode
          , region := "us-west-2", id := "myrepl-0001-001"
          , metrics := [ { name := "NetworkBytesIn", values := [1, -2, 0] } ]
          , metric_period_seconds := 2592000
          , metadata := { cluster_id := "myrepl", engine := "redis"
                        , cache_node_type := "cache.t3.micro"
                        , preferred_az := "us-west-2a"
                        , cluster_mode_enabled := true } }
      , Resource.dynamoDb ] :=
  (C7_report_roundtrip id id (fun _ => rfl)
    [ Resource.elastiCache
        { resource_type := ResourceType.elastiCacheRedisNode
        , region := "us-west-2", id := "myrepl-0001-001"
        , metrics := [ { name := "NetworkBytesIn", values := [1, -2, 0] } ]
        , metric_period_seconds := 2592000
        , metadata := { cluster_id := "myrepl", engine := "redis"
                      , cache_node_type := "cache.t3.micro"
                      , preferred_az := "us-west-2a"
                      , cluster_mode_enabled := true } }
    , Resource.dynamoDb ]).2

end MomentoCli
